import Mathlib

/-!
# volders: the repository layer

A shallow embedding of `internal/representations` and `internal/repository`
(`testrepo.go`, the in-memory backend, and `volders.go`, the PostgreSQL
backend), followed by theorems about the two backends.

Conventions of the embedding:

* Go strings are `String`; `time.Time` is an instant counted in nanoseconds
  from a fixed epoch (`Int`); `int` is `Int`; `[]byte` is a list of byte values.
* A Go `error` is `Option String`: `none` is `nil`, `some text` is the value
  built by `errors.New(text)`.
* A slice is `Option (List α)`: `none` is the `nil` slice, `some []` the empty
  non-nil slice.
* The in-memory backend stores *pointers* (`map[ObjectID]*Folder`), so the
  structs live in an explicit `Heap`; a pointer is an index into it, and a write
  through a pointer is a write to the heap cell.
* `sync.RWMutex` is explicit state; a call that would wait for the mutex has
  the outcome `blocks`, a nil/invalid pointer dereference the outcome `panics`.
* `time.Now()` is the argument `now` of the operations that read the clock.
-/

namespace Volders

/-! ## internal/representations -/

/-- `type ObjectID string` -/
abbrev ObjectID := String

/-- `type User string` -/
abbrev User := String

/-- `time.Time`, as an instant in nanoseconds from a fixed epoch. -/
abbrev Time := Int

/-- `type Common struct` (commons.go) -/
structure Common where
  ID : ObjectID
  User : User
  CreationDate : Time
  ModifiedDate : Time
deriving DecidableEq, Repr

/-- `type Folder struct` (volders.go); `ParentID *string` is nullable. -/
structure Folder extends Common where
  ParentID : Option String
  Name : String
deriving DecidableEq, Repr

/-- `type File struct` (volders.go) -/
structure File extends Common where
  FolderID : String
  Name : String
  ContentType : String
  Size : Int
  Data : List Nat
deriving DecidableEq, Repr

/-! ## Go runtime pieces the repository relies on -/

/-- The Go `error` interface as the repository uses it: `nil` or a message. -/
abbrev error := Option String

/-- `errors.New(text)` -/
def errors.New (text : String) : error := some text

/-- A Go slice: `none` is `nil`, `some xs` a non-nil slice with elements `xs`. -/
abbrev Slice (α : Type) := Option (List α)

/-- `context.Context`, reduced to whether it has been cancelled. -/
structure Context where
  cancelled : Bool
deriving DecidableEq, Repr

/-- A pointer to a heap-allocated struct: the index of its cell. -/
abbrev Addr := Nat

/-- The part of the Go heap the repository can reach: the `Folder` and `File`
structs that callers allocate and hand in by pointer. -/
structure Heap where
  folders : List Folder
  files : List File
deriving DecidableEq, Repr

/-- The heap before anything has been allocated. -/
def Heap.empty : Heap := { folders := [], files := [] }

/-- `&reps.Folder{...}`: allocate a new struct, returning the heap and the pointer. -/
def Heap.newFolder (h : Heap) (f : Folder) : Heap × Addr :=
  ({ h with folders := h.folders ++ [f] }, h.folders.length)

/-- `&reps.File{...}` -/
def Heap.newFile (h : Heap) (f : File) : Heap × Addr :=
  ({ h with files := h.files ++ [f] }, h.files.length)

/-- How a call ends. -/
inductive Outcome (α : Type) where
  /-- the call returns normally with `a` -/
  | returns (a : α)
  /-- the call waits for the mutex and does not return -/
  | blocks
  /-- the call panics (dereference of a pointer that is not a live struct,
  or unlock of a mutex that is not locked) -/
  | panics
deriving DecidableEq, Repr

/-- Sequencing of calls: the first abnormal outcome ends the sequence. -/
def Outcome.bind {α β : Type} (x : Outcome α) (f : α → Outcome β) : Outcome β :=
  match x with
  | .returns a => f a
  | .blocks => .blocks
  | .panics => .panics

/-- `sync.RWMutex` as one call finds it: free, read-locked by `more + 1`
readers, or write-locked. Goroutines waiting for the mutex are not part of the
state: the embedding carries out one call at a time. -/
inductive RWMutex where
  | free
  | readers (more : Nat)
  | writer
deriving DecidableEq, Repr

/-- `mu.Lock()`: needs the mutex free. -/
def RWMutex.Lock : RWMutex → Outcome RWMutex
  | .free => .returns .writer
  | _ => .blocks

/-- `mu.Unlock()`: fatal unless write-locked. -/
def RWMutex.Unlock : RWMutex → Outcome RWMutex
  | .writer => .returns .free
  | _ => .panics

/-- `mu.RLock()`: waits for a writer that holds the mutex. (`sync.RWMutex.RLock`
also waits while a writer is waiting in `Lock`; no call is waiting here.) -/
def RWMutex.RLock : RWMutex → Outcome RWMutex
  | .free => .returns (.readers 0)
  | .readers n => .returns (.readers (n + 1))
  | .writer => .blocks

/-- `mu.RUnlock()`: fatal unless read-locked. -/
def RWMutex.RUnlock : RWMutex → Outcome RWMutex
  | .readers 0 => .returns .free
  | .readers (n + 1) => .returns (.readers n)
  | _ => .panics

/-! ## internal/repository/testrepo.go -/

/-- `type TempRepository struct`: the two maps hold pointers, a key that is
absent maps to `none`. -/
structure TempRepository where
  folders : ObjectID → Option Addr
  files : ObjectID → Option Addr
  mu : RWMutex

/-- `NewTempRepository()` -/
def NewTempRepository : TempRepository :=
  { folders := fun _ => none, files := fun _ => none, mu := .free }

/-- `repo.mu.Lock()` -/
def TempRepository.Lock (repo : TempRepository) : Outcome TempRepository :=
  (repo.mu.Lock).bind fun m => .returns { repo with mu := m }

/-- `repo.mu.Unlock()`, run as the deferred call on every exit. -/
def TempRepository.Unlock (repo : TempRepository) : Outcome TempRepository :=
  (repo.mu.Unlock).bind fun m => .returns { repo with mu := m }

/-- `repo.mu.RLock()` -/
def TempRepository.RLock (repo : TempRepository) : Outcome TempRepository :=
  (repo.mu.RLock).bind fun m => .returns { repo with mu := m }

/-- `repo.mu.RUnlock()`, run as the deferred call on every exit. -/
def TempRepository.RUnlock (repo : TempRepository) : Outcome TempRepository :=
  (repo.mu.RUnlock).bind fun m => .returns { repo with mu := m }

/-- `func (repo *TempRepository) CreateFolder(folder *reps.Folder) error`
(testrepo.go 26-38). Returns the repository, the heap and the error. -/
def TempRepository.CreateFolder (repo : TempRepository) (heap : Heap) (folder : Addr)
    (now : Time) : Outcome (TempRepository × Heap × error) :=
  repo.Lock.bind fun repo =>
  match heap.folders[folder]? with
  | none => .panics
  | some f =>
    if (repo.folders f.ID).isSome then
      repo.Unlock.bind fun repo => .returns (repo, heap, errors.New "folder already exists")
    else
      let f := { f with CreationDate := now }
      let f := { f with ModifiedDate := f.CreationDate }
      let heap := { heap with folders := heap.folders.set folder f }
      let repo := { repo with folders := Function.update repo.folders f.ID (some folder) }
      repo.Unlock.bind fun repo => .returns (repo, heap, none)

/-- `func (repo *TempRepository) GetFolder(id reps.ObjectID) (*reps.Folder, error)`
(testrepo.go 41-50); the returned pointer is `none` for `nil`. -/
def TempRepository.GetFolder (repo : TempRepository) (id : ObjectID) :
    Outcome (TempRepository × Option Addr × error) :=
  repo.RLock.bind fun repo =>
  match repo.folders id with
  | none => repo.RUnlock.bind fun repo => .returns (repo, none, errors.New "folder not found")
  | some folder => repo.RUnlock.bind fun repo => .returns (repo, some folder, none)

/-- `func (repo *TempRepository) UpdateFolder(folder *reps.Folder) error`
(testrepo.go 53-64) -/
def TempRepository.UpdateFolder (repo : TempRepository) (heap : Heap) (folder : Addr)
    (now : Time) : Outcome (TempRepository × Heap × error) :=
  repo.Lock.bind fun repo =>
  match heap.folders[folder]? with
  | none => .panics
  | some f =>
    if !(repo.folders f.ID).isSome then
      repo.Unlock.bind fun repo => .returns (repo, heap, errors.New "folder does not exist")
    else
      let f := { f with ModifiedDate := now }
      let heap := { heap with folders := heap.folders.set folder f }
      let repo := { repo with folders := Function.update repo.folders f.ID (some folder) }
      repo.Unlock.bind fun repo => .returns (repo, heap, none)

/-- `func (repo *TempRepository) DeleteFolder(id reps.ObjectID) error`
(testrepo.go 67-76) -/
def TempRepository.DeleteFolder (repo : TempRepository) (id : ObjectID) :
    Outcome (TempRepository × error) :=
  repo.Lock.bind fun repo =>
  if !(repo.folders id).isSome then
    repo.Unlock.bind fun repo => .returns (repo, errors.New "folder not found")
  else
    let repo := { repo with folders := Function.update repo.folders id none }
    repo.Unlock.bind fun repo => .returns (repo, none)

/-- `func (repo *TempRepository) CreateFile(file *reps.File) error`
(testrepo.go 79-91) -/
def TempRepository.CreateFile (repo : TempRepository) (heap : Heap) (file : Addr)
    (now : Time) : Outcome (TempRepository × Heap × error) :=
  repo.Lock.bind fun repo =>
  match heap.files[file]? with
  | none => .panics
  | some f =>
    if (repo.files f.ID).isSome then
      repo.Unlock.bind fun repo => .returns (repo, heap, errors.New "file already exists")
    else
      let f := { f with CreationDate := now }
      let f := { f with ModifiedDate := f.CreationDate }
      let heap := { heap with files := heap.files.set file f }
      let repo := { repo with files := Function.update repo.files f.ID (some file) }
      repo.Unlock.bind fun repo => .returns (repo, heap, none)

/-- `func (repo *TempRepository) GetFile(id reps.ObjectID) (*reps.File, error)`
(testrepo.go 94-103) -/
def TempRepository.GetFile (repo : TempRepository) (id : ObjectID) :
    Outcome (TempRepository × Option Addr × error) :=
  repo.RLock.bind fun repo =>
  match repo.files id with
  | none => repo.RUnlock.bind fun repo => .returns (repo, none, errors.New "file not found")
  | some file => repo.RUnlock.bind fun repo => .returns (repo, some file, none)

/-- `func (repo *TempRepository) UpdateFile(file *reps.File) error`
(testrepo.go 106-117) -/
def TempRepository.UpdateFile (repo : TempRepository) (heap : Heap) (file : Addr)
    (now : Time) : Outcome (TempRepository × Heap × error) :=
  repo.Lock.bind fun repo =>
  match heap.files[file]? with
  | none => .panics
  | some f =>
    if !(repo.files f.ID).isSome then
      repo.Unlock.bind fun repo => .returns (repo, heap, errors.New "file does not exist")
    else
      let f := { f with ModifiedDate := now }
      let heap := { heap with files := heap.files.set file f }
      let repo := { repo with files := Function.update repo.files f.ID (some file) }
      repo.Unlock.bind fun repo => .returns (repo, heap, none)

/-- `func (repo *TempRepository) DeleteFile(id reps.ObjectID) error`
(testrepo.go 120-129) -/
def TempRepository.DeleteFile (repo : TempRepository) (id : ObjectID) :
    Outcome (TempRepository × error) :=
  repo.Lock.bind fun repo =>
  if !(repo.files id).isSome then
    repo.Unlock.bind fun repo => .returns (repo, errors.New "file not found")
  else
    let repo := { repo with files := Function.update repo.files id none }
    repo.Unlock.bind fun repo => .returns (repo, none)

/-- `func (repo *TempRepository) GetFolderHierarchy(ctx, folderID)`
(testrepo.go 131-133): takes no lock and reads nothing. -/
def TempRepository.GetFolderHierarchy (repo : TempRepository) (_ctx : Context)
    (_folderID : ObjectID) : Outcome (TempRepository × Slice Folder × error) :=
  .returns (repo, some [], errors.New "not implemented")

/-! ## Callers: sequences of calls on one repository -/

/-- One step of a caller of the in-memory backend: allocating a struct, writing
to a struct through a pointer it holds (`*p = f`; the repository stores and
returns the caller's own pointers, so this may be a struct the repository
holds), or one call of the repository interface. -/
inductive Call where
  | newFolder (f : Folder)
  | newFile (f : File)
  | writeFolder (p : Addr) (f : Folder)
  | writeFile (p : Addr) (f : File)
  | CreateFolder (folder : Addr) (now : Time)
  | GetFolder (id : ObjectID)
  | UpdateFolder (folder : Addr) (now : Time)
  | DeleteFolder (id : ObjectID)
  | CreateFile (file : Addr) (now : Time)
  | GetFile (id : ObjectID)
  | UpdateFile (file : Addr) (now : Time)
  | DeleteFile (id : ObjectID)
  | GetFolderHierarchy (ctx : Context) (folderID : ObjectID)
deriving DecidableEq, Repr

/-- The repository, the heap its pointers point into, and the values
`time.Now()` has returned so far, newest first. -/
structure World where
  repo : TempRepository
  heap : Heap
  clock : List Time

/-- A fresh repository and an empty heap; the clock has not been read. -/
def World.init : World := { repo := NewTempRepository, heap := Heap.empty, clock := [] }

/-- Record a reading of the clock when the call got as far as `time.Now()`,
which `Create*` and `Update*` do exactly on their success path. -/
def World.tick (clock : List Time) (now : Time) (err : error) : List Time :=
  if err.isNone then now :: clock else clock

/-- Carry out one call. -/
def World.step (w : World) : Call → Outcome World
  | .newFolder f => .returns { w with heap := (w.heap.newFolder f).1 }
  | .newFile f => .returns { w with heap := (w.heap.newFile f).1 }
  | .writeFolder p f =>
    match w.heap.folders[p]? with
    | none => .panics
    | some _ => .returns { w with heap := { w.heap with folders := w.heap.folders.set p f } }
  | .writeFile p f =>
    match w.heap.files[p]? with
    | none => .panics
    | some _ => .returns { w with heap := { w.heap with files := w.heap.files.set p f } }
  | .CreateFolder folder now =>
    (w.repo.CreateFolder w.heap folder now).bind fun r =>
      .returns { repo := r.1, heap := r.2.1, clock := World.tick w.clock now r.2.2 }
  | .GetFolder id =>
    (w.repo.GetFolder id).bind fun r => .returns { w with repo := r.1 }
  | .UpdateFolder folder now =>
    (w.repo.UpdateFolder w.heap folder now).bind fun r =>
      .returns { repo := r.1, heap := r.2.1, clock := World.tick w.clock now r.2.2 }
  | .DeleteFolder id =>
    (w.repo.DeleteFolder id).bind fun r => .returns { w with repo := r.1 }
  | .CreateFile file now =>
    (w.repo.CreateFile w.heap file now).bind fun r =>
      .returns { repo := r.1, heap := r.2.1, clock := World.tick w.clock now r.2.2 }
  | .GetFile id =>
    (w.repo.GetFile id).bind fun r => .returns { w with repo := r.1 }
  | .UpdateFile file now =>
    (w.repo.UpdateFile w.heap file now).bind fun r =>
      .returns { repo := r.1, heap := r.2.1, clock := World.tick w.clock now r.2.2 }
  | .DeleteFile id =>
    (w.repo.DeleteFile id).bind fun r => .returns { w with repo := r.1 }
  | .GetFolderHierarchy ctx folderID =>
    (w.repo.GetFolderHierarchy ctx folderID).bind fun r => .returns { w with repo := r.1 }

/-- Carry out a sequence of calls, first to last. -/
def World.run (w : World) : List Call → Outcome World
  | [] => .returns w
  | c :: cs => (w.step c).bind fun w => w.run cs

/-- A state reached from the empty store by some sequence of caller steps. -/
def Reachable (w : World) : Prop := ∃ calls : List Call, World.init.run calls = .returns w

/-- The repository holds the pointer `p` to a folder struct: some key maps to it. -/
def World.holdsFolder (w : World) (p : Addr) : Prop := ∃ k, w.repo.folders k = some p

/-- The repository holds the pointer `p` to a file struct. -/
def World.holdsFile (w : World) (p : Addr) : Prop := ∃ k, w.repo.files k = some p

/-- The step is a write through a pointer. -/
def Call.isWrite : Call → Bool
  | .writeFolder _ _ => true
  | .writeFile _ _ => true
  | _ => false

/-- The step leaves alone every struct the repository holds: it is not a write
to a struct whose pointer is stored in a map. -/
def Call.handsOff (w : World) : Call → Prop
  | .writeFolder p _ => ¬ w.holdsFolder p
  | .writeFile p _ => ¬ w.holdsFile p
  | _ => True

/-- No step of the sequence, carried out from `w`, writes to a struct while the
repository holds its pointer. -/
def World.runsHandsOff (w : World) : List Call → Prop
  | [] => True
  | c :: cs => c.handsOff w ∧ ∀ w', w.step c = .returns w' → w'.runsHandsOff cs

/-- A state reached from the empty store by a sequence of caller steps none of
which writes to a struct while the repository holds its pointer. -/
def ReachableHandsOff (w : World) : Prop :=
  ∃ calls : List Call, World.init.runsHandsOff calls ∧ World.init.run calls = .returns w

/-- A list of clock readings, newest first, in which the clock never ran
backwards: each reading is at least every earlier one. -/
def clockNonDecreasing (readings : List Time) : Prop :=
  readings.Pairwise fun later earlier => earlier ≤ later

/-- The folder struct stored under `id`, read through the stored pointer. -/
def World.folderAt (w : World) (id : ObjectID) : Option Folder :=
  (w.repo.folders id).bind fun p => w.heap.folders[p]?

/-- The file struct stored under `id`, read through the stored pointer. -/
def World.fileAt (w : World) (id : ObjectID) : Option File :=
  (w.repo.files id).bind fun p => w.heap.files[p]?

/-! ## internal/repository/volders.go: the hierarchy query -/

/-- A row of the table `folders(id, parent_id, name, creation_date,
modified_date)`, the columns the statements of volders.go read and write;
`parent_id` is nullable. -/
structure FolderRow where
  id : String
  parent_id : Option String
  name : String
  creation_date : Time
  modified_date : Time
deriving DecidableEq, Repr

/-- The zero value `var folder reps.Folder`. -/
def Folder.zero : Folder :=
  { ID := "", User := "", CreationDate := 0, ModifiedDate := 0, ParentID := none, Name := "" }

/-- `rows.Scan(&folder.ID, &folder.ParentID, &folder.Name, &folder.CreationDate,
&folder.ModifiedDate)` on a row that scans: the five fields are written, a NULL
`parent_id` becomes the nil pointer, `User` is not touched. -/
def FolderRow.scanInto (row : FolderRow) (folder : Folder) : Folder :=
  { folder with
    ID := row.id, ParentID := row.parent_id, Name := row.name,
    CreationDate := row.creation_date, ModifiedDate := row.modified_date }

/-- `*sql.Rows`: what each `Next()`/`Scan` pair delivers, in order (the row, or
the error `Scan` returns for it), and what `rows.Err()` reports once `Next()`
has returned false (nil, or the error that ended the iteration early, a
cancelled context included). -/
structure Rows where
  items : List (Except String FolderRow)
  err : error

/-- The statement text of `GetFolderHierarchy`, clause by clause:
`WITH RECURSIVE cte AS (SELECT anchorSelect FROM anchorFrom WHERE anchorWhere = $1
UNION ALL SELECT f.stepSelect FROM stepFrom f INNER JOIN stepJoin fh
ON f.stepOnChild = fh.stepOnParent) SELECT finalSelect FROM finalFrom`. -/
structure HierarchyQuery where
  cte : String
  anchorSelect : List String
  anchorFrom : String
  anchorWhere : String
  stepSelect : List String
  stepFrom : String
  stepJoin : String
  stepOnChild : String
  stepOnParent : String
  finalSelect : List String
  finalFrom : String
deriving DecidableEq, Repr

/-- A row of the table `files(id, folder_id, name, content_type, size,
creation_date, modified_date, data)`. -/
structure FileRow where
  id : String
  folder_id : String
  name : String
  content_type : String
  size : Int
  creation_date : Time
  modified_date : Time
  data : List Nat
deriving DecidableEq, Repr

/-- An argument bound to a `$n` placeholder. -/
inductive Value where
  | null
  | text (s : String)
  | int (i : Int)
  | time (t : Time)
  | bytes (b : List Nat)
deriving DecidableEq, Repr

/-- The statement texts of the single-row operations of volders.go, clause by
clause:
`SELECT columns FROM table WHERE key = $1`,
`INSERT INTO table (columns) VALUES ($1, ..., $n) RETURNING returning`,
`UPDATE table SET c1 = $1, ..., cn = $n WHERE key = $n+1`,
`DELETE FROM table WHERE key = $1`. -/
inductive Statement where
  | selectWhere (columns : List String) (table : String) (key : String)
  | insertReturning (table : String) (columns : List String) (returning : String)
  | updateWhere (table : String) (columns : List String) (key : String)
  | deleteWhere (table : String) (key : String)
deriving DecidableEq, Repr

/-- `*sql.Row`: what its `Scan` delivers to the destinations, or the error
`Scan` returns; a query that matched no row gives `sql.ErrNoRows`. -/
inductive Row where
  | err (e : String)
  | folder (r : FolderRow)
  | file (r : FileRow)
  | id (id : String)
deriving DecidableEq, Repr

/-- `sql.ErrNoRows` -/
def sql.ErrNoRows : String := "sql: no rows in result set"

/-- `*sql.DB`, as far as the repository uses it: `QueryContext(ctx, query,
folderID)` returns the rows or an error, `QueryRow(query, args...)` a row to
scan, `Exec(query, args...)` the number of rows affected and an error. -/
structure DB where
  QueryContext : Context → HierarchyQuery → ObjectID → Except String Rows
  QueryRow : Statement → List Value → Row
  Exec : Statement → List Value → Nat × error

/-- `type PGVolderRepository struct` -/
structure PGVolderRepository where
  DB : DB

/-- The `query` of `GetFolderHierarchy` (volders.go 108-119), as written there. -/
def PGVolderRepository.hierarchyQuery : HierarchyQuery :=
  { cte := "folder_hierarchy"
    anchorSelect := ["id", "parent_id", "name", "creation_date", "modified_date"]
    anchorFrom := "folders"
    anchorWhere := "id"
    stepSelect := ["id", "parent_id", "name", "creation_date", "modified_date"]
    stepFrom := "folders"
    stepJoin := "folder_hierarchy"
    stepOnChild := "parent_id"
    stepOnParent := "id"
    finalSelect := ["id", "parent_id", "name", "creation_date", "modified_classifieded_date"]
    finalFrom := "folder_hierarchy" }

/-- `append(folders, folder)` -/
def Slice.append {α : Type} (s : Slice α) (a : α) : Slice α :=
  match s with
  | none => some [a]
  | some xs => some (xs ++ [a])

/-- The loop `for rows.Next() { ... }` of `GetFolderHierarchy` and the check of
`rows.Err()` after it (volders.go 127-139). -/
def PGVolderRepository.scanAll : List (Except String FolderRow) → error → Slice Folder →
    Slice Folder × error
  | [], final, folders =>
    match final with
    | some err => (none, some err)
    | none => (folders, none)
  | .error err :: _, _, _ => (none, some err)
  | .ok row :: rest, final, folders =>
    PGVolderRepository.scanAll rest final (folders.append (row.scanInto Folder.zero))

/-- `func (repo *PGVolderRepository) GetFolderHierarchy(ctx, folderID)`
(volders.go 106-140) -/
def PGVolderRepository.GetFolderHierarchy (repo : PGVolderRepository) (ctx : Context)
    (folderID : ObjectID) : Slice Folder × error :=
  match repo.DB.QueryContext ctx PGVolderRepository.hierarchyQuery folderID with
  | .error err => (none, some err)
  | .ok rows => PGVolderRepository.scanAll rows.items rows.err none

/-! ## internal/repository/volders.go: the single-row operations -/

/-- The zero value `&reps.File{}`. -/
def File.zero : File :=
  { ID := "", User := "", CreationDate := 0, ModifiedDate := 0, FolderID := "", Name := "",
    ContentType := "", Size := 0, Data := [] }

/-- A `*string` as a statement argument: the nil pointer is NULL. -/
def Value.ofPtr : Option String → Value
  | none => .null
  | some s => .text s

/-- `row.Scan(&folder.ID, &folder.ParentID, &folder.Name, &folder.CreationDate,
&folder.ModifiedDate)`: the struct after the call and the error. -/
def Row.scanFolder (row : Row) (folder : Folder) : Folder × error :=
  match row with
  | .err e => (folder, some e)
  | .folder r => (r.scanInto folder, none)
  | .file _ => (folder, some "sql: expected 8 destination arguments in Scan, not 5")
  | .id _ => (folder, some "sql: expected 1 destination arguments in Scan, not 5")

/-- `row.Scan(&file.ID, &file.FolderID, &file.Name, &file.ContentType, &file.Size,
&file.CreationDate, &file.ModifiedDate, &file.Data)` -/
def Row.scanFile (row : Row) (file : File) : File × error :=
  match row with
  | .err e => (file, some e)
  | .file r =>
    ({ file with
       ID := r.id, FolderID := r.folder_id, Name := r.name, ContentType := r.content_type,
       Size := r.size, CreationDate := r.creation_date, ModifiedDate := r.modified_date,
       Data := r.data }, none)
  | .folder _ => (file, some "sql: expected 5 destination arguments in Scan, not 8")
  | .id _ => (file, some "sql: expected 1 destination arguments in Scan, not 8")

/-- `row.Scan(&x.ID)`: the ID after the call and the error. -/
def Row.scanID (row : Row) (id : ObjectID) : ObjectID × error :=
  match row with
  | .err e => (id, some e)
  | .id generated => (generated, none)
  | .folder _ => (id, some "sql: expected 5 destination arguments in Scan, not 1")
  | .file _ => (id, some "sql: expected 8 destination arguments in Scan, not 1")

/-- The `query` of `GetFolder` (volders.go 34). -/
def PGVolderRepository.getFolderQuery : Statement :=
  .selectWhere ["id", "parent_id", "name", "creation_date", "modified_date"] "folders" "id"

/-- The `query` of `GetFile` (volders.go 44). -/
def PGVolderRepository.getFileQuery : Statement :=
  .selectWhere
    ["id", "folder_id", "name", "content_type", "size", "creation_date", "modified_date", "data"]
    "files" "id"

/-- The `query` of `CreateFolder` (volders.go 53). -/
def PGVolderRepository.createFolderQuery : Statement :=
  .insertReturning "folders" ["parent_id", "name", "creation_date", "modified_date"] "id"

/-- The `query` of `CreateFile` (volders.go 62). -/
def PGVolderRepository.createFileQuery : Statement :=
  .insertReturning "files"
    ["folder_id", "name", "content_type", "size", "creation_date", "modified_date", "data"] "id"

/-- The `query` of `UpdateFolder` (volders.go 71). -/
def PGVolderRepository.updateFolderQuery : Statement :=
  .updateWhere "folders" ["parent_id", "name", "modified_date"] "id"

/-- The `query` of `UpdateFile` (volders.go 80). -/
def PGVolderRepository.updateFileQuery : Statement :=
  .updateWhere "files"
    ["folder_id", "name", "content_type", "size", "modified_date", "data"] "id"

/-- The `query` of `DeleteFolder` (volders.go 89). -/
def PGVolderRepository.deleteFolderQuery : Statement := .deleteWhere "folders" "id"

/-- The `query` of `DeleteFile` (volders.go 98). -/
def PGVolderRepository.deleteFileQuery : Statement := .deleteWhere "files" "id"

/-- The arguments `CreateFolder` binds: `folder.ParentID, folder.Name,
folder.CreationDate, folder.ModifiedDate`. -/
def PGVolderRepository.createFolderArgs (folder : Folder) : List Value :=
  [Value.ofPtr folder.ParentID, .text folder.Name, .time folder.CreationDate,
   .time folder.ModifiedDate]

/-- The arguments `CreateFile` binds: `file.FolderID, file.Name, file.ContentType,
file.Size, file.CreationDate, file.ModifiedDate, file.Data`. -/
def PGVolderRepository.createFileArgs (file : File) : List Value :=
  [.text file.FolderID, .text file.Name, .text file.ContentType, .int file.Size,
   .time file.CreationDate, .time file.ModifiedDate, .bytes file.Data]

/-- The arguments `UpdateFolder` binds: `folder.ParentID, folder.Name,
folder.ModifiedDate, folder.ID`. -/
def PGVolderRepository.updateFolderArgs (folder : Folder) : List Value :=
  [Value.ofPtr folder.ParentID, .text folder.Name, .time folder.ModifiedDate, .text folder.ID]

/-- The arguments `UpdateFile` binds: `file.FolderID, file.Name, file.ContentType,
file.Size, file.ModifiedDate, file.Data, file.ID`. -/
def PGVolderRepository.updateFileArgs (file : File) : List Value :=
  [.text file.FolderID, .text file.Name, .text file.ContentType, .int file.Size,
   .time file.ModifiedDate, .bytes file.Data, .text file.ID]

/-- `func (repo *PGVolderRepository) GetFolder(id reps.ObjectID) (*reps.Folder, error)`
(volders.go 32-40); the returned pointer is `none` for `nil`. -/
def PGVolderRepository.GetFolder (repo : PGVolderRepository) (id : ObjectID) :
    Option Folder × error :=
  let folder := Folder.zero
  match (repo.DB.QueryRow PGVolderRepository.getFolderQuery [.text id]).scanFolder folder with
  | (_, some err) => (none, some err)
  | (folder, none) => (some folder, none)

/-- `func (repo *PGVolderRepository) GetFile(id reps.ObjectID) (*reps.File, error)`
(volders.go 42-50) -/
def PGVolderRepository.GetFile (repo : PGVolderRepository) (id : ObjectID) :
    Option File × error :=
  let file := File.zero
  match (repo.DB.QueryRow PGVolderRepository.getFileQuery [.text id]).scanFile file with
  | (_, some err) => (none, some err)
  | (file, none) => (some file, none)

/-- `func (repo *PGVolderRepository) CreateFolder(folder *reps.Folder) error`
(volders.go 52-59): the caller's struct after the call, and the error. -/
def PGVolderRepository.CreateFolder (repo : PGVolderRepository) (folder : Folder) :
    Folder × error :=
  match (repo.DB.QueryRow PGVolderRepository.createFolderQuery
      (PGVolderRepository.createFolderArgs folder)).scanID folder.ID with
  | (id, some err) => ({ folder with ID := id }, some err)
  | (id, none) => ({ folder with ID := id }, none)

/-- `func (repo *PGVolderRepository) CreateFile(file *reps.File) error`
(volders.go 61-68) -/
def PGVolderRepository.CreateFile (repo : PGVolderRepository) (file : File) :
    File × error :=
  match (repo.DB.QueryRow PGVolderRepository.createFileQuery
      (PGVolderRepository.createFileArgs file)).scanID file.ID with
  | (id, some err) => ({ file with ID := id }, some err)
  | (id, none) => ({ file with ID := id }, none)

/-- `func (repo *PGVolderRepository) UpdateFolder(folder *reps.Folder) error`
(volders.go 70-77): the result of `Exec` is dropped (`_, err :=`). -/
def PGVolderRepository.UpdateFolder (repo : PGVolderRepository) (folder : Folder) : error :=
  match repo.DB.Exec PGVolderRepository.updateFolderQuery
      (PGVolderRepository.updateFolderArgs folder) with
  | (_, some err) => some err
  | (_, none) => none

/-- `func (repo *PGVolderRepository) UpdateFile(file *reps.File) error`
(volders.go 79-86) -/
def PGVolderRepository.UpdateFile (repo : PGVolderRepository) (file : File) : error :=
  match repo.DB.Exec PGVolderRepository.updateFileQuery
      (PGVolderRepository.updateFileArgs file) with
  | (_, some err) => some err
  | (_, none) => none

/-- `func (repo *PGVolderRepository) DeleteFolder(id reps.ObjectID) error`
(volders.go 88-95) -/
def PGVolderRepository.DeleteFolder (repo : PGVolderRepository) (id : ObjectID) : error :=
  match repo.DB.Exec PGVolderRepository.deleteFolderQuery [.text id] with
  | (_, some err) => some err
  | (_, none) => none

/-- `func (repo *PGVolderRepository) DeleteFile(id reps.ObjectID) error`
(volders.go 97-104) -/
def PGVolderRepository.DeleteFile (repo : PGVolderRepository) (id : ObjectID) : error :=
  match repo.DB.Exec PGVolderRepository.deleteFileQuery [.text id] with
  | (_, some err) => some err
  | (_, none) => none

/-! ## PostgreSQL, as far as the hierarchy query goes -/

/-- The columns of the table `folders`. -/
def Postgres.folderColumns : List String :=
  ["id", "parent_id", "name", "creation_date", "modified_date"]

/-- A text column of a row by name: `none` when the row has no such text
column, `some none` for NULL. -/
def FolderRow.text (r : FolderRow) (column : String) : Option (Option String) :=
  if column = "id" then some (some r.id)
  else if column = "parent_id" then some r.parent_id
  else if column = "name" then some (some r.name)
  else none

/-- A timestamp column of a row by name. -/
def FolderRow.time (r : FolderRow) (column : String) : Option Time :=
  if column = "creation_date" then some r.creation_date
  else if column = "modified_date" then some r.modified_date
  else none

/-- The first of `columns` that `known` does not have: the server reports it
as an undefined column. -/
def Postgres.undefinedColumn (known columns : List String) : error :=
  (columns.find? fun c => !known.contains c).map fun c =>
    "column \"" ++ c ++ "\" does not exist"

/-- Analysis of the statement before it runs: every relation and every column
it names must exist; the columns of the recursive relation are those of its
anchor select. -/
def Postgres.analyse (q : HierarchyQuery) : error :=
  if q.anchorFrom ≠ "folders" then some ("relation \"" ++ q.anchorFrom ++ "\" does not exist")
  else if q.stepFrom ≠ "folders" then some ("relation \"" ++ q.stepFrom ++ "\" does not exist")
  else if q.stepJoin ≠ q.cte then some ("relation \"" ++ q.stepJoin ++ "\" does not exist")
  else if q.finalFrom ≠ q.cte then some ("relation \"" ++ q.finalFrom ++ "\" does not exist")
  else if q.anchorSelect.length ≠ q.stepSelect.length then
    some "each UNION query must have the same number of columns"
  else
    (Postgres.undefinedColumn Postgres.folderColumns (q.anchorSelect ++ [q.anchorWhere])).or
    ((Postgres.undefinedColumn Postgres.folderColumns (q.stepSelect ++ [q.stepOnChild])).or
    (Postgres.undefinedColumn q.anchorSelect (q.stepOnParent :: q.finalSelect)))

/-- One round of the recursive step: for each row of the previous round, in
order, the rows of the table joined to it by `child = parent` (NULL joins
nothing). -/
def Postgres.joinStep (table : List FolderRow) (child parent : String)
    (level : List FolderRow) : List FolderRow :=
  level.flatMap fun fh => table.filter fun f =>
    match f.text child, fh.text parent with
    | some (some a), some (some b) => a = b
    | _, _ => false

/-- The rows of the recursive relation: the anchor rows, then round after round
of the recursive step until a round is empty. `rounds` bounds the number of
rounds; an acyclic table needs at most one round per row. -/
def Postgres.closure (table : List FolderRow) (child parent : String) :
    Nat → List FolderRow → List FolderRow
  | 0, _ => []
  | rounds + 1, level =>
    if level.isEmpty then []
    else level ++ Postgres.closure table child parent rounds
      (Postgres.joinStep table child parent level)

/-- What `Scan` receives for a result row: the selected columns by position,
for the destinations `(string, *string, string, time, time)`. -/
def Postgres.deliver (columns : List String) (r : FolderRow) : Except String FolderRow :=
  match columns with
  | [c0, c1, c2, c3, c4] =>
    match r.text c0, r.text c1, r.text c2, r.time c3, r.time c4 with
    | some (some id), some parent, some (some name), some created, some modified =>
      .ok { id := id, parent_id := parent, name := name,
            creation_date := created, modified_date := modified }
    | _, _, _, _, _ => .error "sql: Scan error: unsupported conversion"
  | _ => .error "sql: wrong number of destination arguments in Scan"

/-- A PostgreSQL server holding `table` as its `folders`, answering
`QueryContext`: a cancelled context and a statement that fails analysis give an
error, otherwise the rows of the traversal come back in order. -/
def Postgres.QueryContext (table : List FolderRow) (ctx : Context) (q : HierarchyQuery)
    (folderID : ObjectID) : Except String Rows :=
  if ctx.cancelled then .error "context canceled"
  else
    match Postgres.analyse q with
    | some err => .error err
    | none =>
      let anchor := table.filter fun f => f.text q.anchorWhere = some (some folderID)
      let rows := Postgres.closure table q.stepOnChild q.stepOnParent (table.length + 1) anchor
      .ok { items := rows.map (Postgres.deliver q.finalSelect), err := none }

/-- The columns of the table `files`. -/
def Postgres.fileColumns : List String :=
  ["id", "folder_id", "name", "content_type", "size", "creation_date", "modified_date", "data"]

/-- Analysis of a single-row statement: the relation must be `folders` or
`files` and have every column named. -/
def Postgres.check (table : String) (columns : List String) : error :=
  if table = "folders" then Postgres.undefinedColumn Postgres.folderColumns columns
  else if table = "files" then Postgres.undefinedColumn Postgres.fileColumns columns
  else some ("relation \"" ++ table ++ "\" does not exist")

/-- The rows of `table` whose text column `key` holds the argument. -/
def Postgres.matching (table : List FolderRow) (key : String) (arg : Option Value) :
    List FolderRow :=
  table.filter fun r =>
    match arg with
    | some (.text v) => r.text key = some (some v)
    | _ => false

/-- A PostgreSQL server holding `table` as its `folders` and an empty `files`,
answering `QueryRow`: a select delivers the first matching row or
`sql.ErrNoRows`, an insert the generated id, a statement that returns no rows
`sql.ErrNoRows`. -/
def Postgres.QueryRow (table : List FolderRow) (stmt : Statement) (args : List Value) : Row :=
  match stmt with
  | .selectWhere columns relation key =>
    match Postgres.check relation (columns ++ [key]) with
    | some err => .err err
    | none =>
      if relation = "folders" then
        match Postgres.matching table key args.head? with
        | [] => .err sql.ErrNoRows
        | r :: _ =>
          match Postgres.deliver columns r with
          | .ok row => .folder row
          | .error err => .err err
      else .err sql.ErrNoRows
  | .insertReturning relation columns returning =>
    match Postgres.check relation (columns ++ [returning]) with
    | some err => .err err
    | none =>
      if relation = "folders" then .id (toString (table.length + 1)) else .id "1"
  | .updateWhere relation columns key =>
    match Postgres.check relation (columns ++ [key]) with
    | some err => .err err
    | none => .err sql.ErrNoRows
  | .deleteWhere relation key =>
    match Postgres.check relation [key] with
    | some err => .err err
    | none => .err sql.ErrNoRows

/-- The same server answering `Exec`: the number of rows the statement affects,
or the error of its analysis. -/
def Postgres.Exec (table : List FolderRow) (stmt : Statement) (args : List Value) :
    Nat × error :=
  match stmt with
  | .selectWhere columns relation key =>
    match Postgres.check relation (columns ++ [key]) with
    | some err => (0, some err)
    | none =>
      if relation = "folders" then ((Postgres.matching table key args.head?).length, none)
      else (0, none)
  | .insertReturning relation columns returning =>
    match Postgres.check relation (columns ++ [returning]) with
    | some err => (0, some err)
    | none => (1, none)
  | .updateWhere relation columns key =>
    match Postgres.check relation (columns ++ [key]) with
    | some err => (0, some err)
    | none =>
      if relation = "folders" then
        ((Postgres.matching table key args.getLast?).length, none)
      else (0, none)
  | .deleteWhere relation key =>
    match Postgres.check relation [key] with
    | some err => (0, some err)
    | none =>
      if relation = "folders" then ((Postgres.matching table key args.head?).length, none)
      else (0, none)

/-- The database handle of a server holding `table`. -/
def Postgres.db (table : List FolderRow) : DB :=
  { QueryContext := Postgres.QueryContext table
    QueryRow := Postgres.QueryRow table
    Exec := Postgres.Exec table }

/-- What holds between calls as long as no caller writes to a struct the
repository holds: the mutex is free, and every stored pointer points to a live
struct whose ModifiedDate is one of the clock readings taken so far. -/
def World.Inv (w : World) : Prop :=
  w.repo.mu = .free ∧
  (∀ k p, w.repo.folders k = some p →
    ∃ G, w.heap.folders[p]? = some G ∧ G.ModifiedDate ∈ w.clock) ∧
  (∀ k p, w.repo.files k = some p →
    ∃ X, w.heap.files[p]? = some X ∧ X.ModifiedDate ∈ w.clock)

/-- Each record is stored under its own ID: every stored pointer points to a
live struct whose ID is the key. It holds as long as no caller writes to a
struct the repository holds. -/
def World.Keyed (w : World) : Prop :=
  (∀ k p, w.repo.folders k = some p → ∃ G, w.heap.folders[p]? = some G ∧ G.ID = k) ∧
  (∀ k p, w.repo.files k = some p → ∃ X, w.heap.files[p]? = some X ∧ X.ID = k)

/-- The elements of a slice; the nil slice has none. -/
def Slice.elems {α : Type} : Slice α → List α
  | none => []
  | some xs => xs

/-- The outcome with its result changed by `f`. -/
def Outcome.map {α β : Type} (f : α → β) : Outcome α → Outcome β
  | .returns a => .returns (f a)
  | .blocks => .blocks
  | .panics => .panics

/-! ## Sample data -/

/-- A folder struct as a caller may build it. -/
def Sample.folderA : Folder :=
  { ID := "a", User := "u", CreationDate := 0, ModifiedDate := 0, ParentID := none,
    Name := "docs" }

/-- A file struct as a caller may build it. -/
def Sample.fileX : File :=
  { ID := "x", User := "u", CreationDate := 0, ModifiedDate := 0, FolderID := "a",
    Name := "notes.txt", ContentType := "text/plain", Size := 2, Data := [104, 105] }

/-- A heap holding the two structs, each at address 0 of its kind. -/
def Sample.heap : Heap := { folders := [Sample.folderA], files := [Sample.fileX] }

/-- A repository in which the sample folder is stored under "a" and the sample
file under "x". -/
def Sample.repo : TempRepository :=
  { folders := Function.update (fun _ => none) "a" (some 0)
    files := Function.update (fun _ => none) "x" (some 0)
    mu := .free }

/-- A child folder of "a". -/
def Sample.folderB : Folder :=
  { ID := "b", User := "u", CreationDate := 3, ModifiedDate := 4, ParentID := some "a",
    Name := "drafts" }

/-- A world in which "a", its child "b" and the file "x" in "a" are stored. -/
def Sample.world : World :=
  { repo :=
      { folders := Function.update (Function.update (fun _ => none) "a" (some 0)) "b" (some 1)
        files := Function.update (fun _ => none) "x" (some 0)
        mu := .free }
    heap := { folders := [Sample.folderA, Sample.folderB], files := [Sample.fileX] }
    clock := [] }

/-- The repository of `Sample.world` once "a" has been deleted. -/
def Sample.afterDelete : TempRepository :=
  { Sample.world.repo with folders := Function.update Sample.world.repo.folders "a" none }

/-- A caller allocates the sample folder and file and creates both at time 5. -/
def Sample.calls : List Call :=
  [.newFolder Sample.folderA, .newFile Sample.fileX, .CreateFolder 0 5, .CreateFile 0 5]

/-- The state `Sample.calls` leads to. -/
def Sample.stored : World :=
  { repo := Sample.repo
    heap :=
      { folders := [{ Sample.folderA with CreationDate := 5, ModifiedDate := 5 }]
        files := [{ Sample.fileX with CreationDate := 5, ModifiedDate := 5 }] }
    clock := [5, 5] }

/-- A second struct for the folder "a", renamed, as a caller builds it for an
update: its dates are the zero value. -/
def Sample.folderA2 : Folder := { Sample.folderA with Name := "papers" }

/-- A second struct for the file "x", with new content. -/
def Sample.fileX2 : File := { Sample.fileX with Size := 3, Data := [104, 101, 121] }

/-- `Sample.stored` after the caller has allocated the two update structs. -/
def Sample.beforeUpdate : World :=
  { Sample.stored with
    heap :=
      { folders := Sample.stored.heap.folders ++ [Sample.folderA2]
        files := Sample.stored.heap.files ++ [Sample.fileX2] } }

/-- The `folders` table holding the tree root→{A, B}, A→{C}, and an unrelated
folder X. -/
def Sample.tree : List FolderRow :=
  [ { id := "root", parent_id := none, name := "r", creation_date := 1, modified_date := 1 },
    { id := "X", parent_id := none, name := "x", creation_date := 1, modified_date := 1 },
    { id := "C", parent_id := some "A", name := "c", creation_date := 4, modified_date := 5 },
    { id := "A", parent_id := some "root", name := "a", creation_date := 2, modified_date := 2 },
    { id := "B", parent_id := some "root", name := "b", creation_date := 3, modified_date := 3 } ]

/-- The folder a row of the sample table scans to. -/
def Sample.scanned (id : String) (parent : Option String) (name : String)
    (created modified : Time) : Folder :=
  { ID := id, User := "", CreationDate := created, ModifiedDate := modified,
    ParentID := parent, Name := name }

/-- The PostgreSQL backend on a server holding the sample tree. -/
def Sample.pg : PGVolderRepository := { DB := Postgres.db Sample.tree }

/-- A store with empty tables on which the hierarchy statement runs and gives
`result`. -/
def Sample.cursor (result : Except String Rows) : DB :=
  { Postgres.db [] with QueryContext := fun _ _ _ => result }

/-- Two rows as a cursor may deliver them: a root folder, whose `parent_id` is
NULL, and a child of it. -/
def Sample.rowRoot : FolderRow :=
  { id := "root", parent_id := none, name := "r", creation_date := 1, modified_date := 1 }

/-- The child row. -/
def Sample.rowA : FolderRow :=
  { id := "A", parent_id := some "root", name := "a", creation_date := 2, modified_date := 2 }

/-- A folder struct whose two dates differ, as a caller may hand it to `CreateFolder`. -/
def Sample.folderDated : Folder := { Sample.folderA with CreationDate := 1, ModifiedDate := 2 }

/-- A file struct whose two dates differ. -/
def Sample.fileDated : File := { Sample.fileX with CreationDate := 1, ModifiedDate := 2 }

/-- A caller creates "a" and "x" at time 5, then sets the ModifiedDate of the
two structs, which the repository holds by now, to 100 through its own pointers,
and allocates the structs for an update. -/
def Sample.tamperCalls : List Call :=
  [.newFolder Sample.folderA, .newFile Sample.fileX, .CreateFolder 0 5, .CreateFile 0 5,
   .writeFolder 0 { Sample.folderA with CreationDate := 5, ModifiedDate := 100 },
   .writeFile 0 { Sample.fileX with CreationDate := 5, ModifiedDate := 100 },
   .newFolder Sample.folderA2, .newFile Sample.fileX2]

/-- The state `Sample.tamperCalls` leads to. -/
def Sample.tampered : World :=
  { repo := Sample.repo
    heap :=
      { folders := [{ Sample.folderA with CreationDate := 5, ModifiedDate := 100 },
                    Sample.folderA2]
        files := [{ Sample.fileX with CreationDate := 5, ModifiedDate := 100 },
                  Sample.fileX2] }
    clock := [5, 5] }

/-- A caller creates "a" and "x" at time 5, then sets the ID of the same two
structs to "b" and "y" through its own pointers and creates them again at
time 6. -/
def Sample.renameCalls : List Call :=
  [.newFolder Sample.folderA, .newFile Sample.fileX, .CreateFolder 0 5, .CreateFile 0 5,
   .writeFolder 0 { Sample.folderA with ID := "b", CreationDate := 5, ModifiedDate := 5 },
   .writeFile 0 { Sample.fileX with ID := "y", CreationDate := 5, ModifiedDate := 5 },
   .CreateFolder 0 6, .CreateFile 0 6]

/-- The state `Sample.renameCalls` leads to: both keys of each map hold the
one pointer. -/
def Sample.renamed : World :=
  { repo :=
      { folders := Function.update (Function.update (fun _ => none) "a" (some 0)) "b" (some 0)
        files := Function.update (Function.update (fun _ => none) "x" (some 0)) "y" (some 0)
        mu := .free }
    heap :=
      { folders := [{ Sample.folderA with ID := "b", CreationDate := 6, ModifiedDate := 6 }]
        files := [{ Sample.fileX with ID := "y", CreationDate := 6, ModifiedDate := 6 }] }
    clock := [6, 6, 5, 5] }

/-- A repository in which a folder is stored under the ID "x", no folder under
"a", and no file at all. -/
def Sample.folderNamedX : TempRepository :=
  { folders := Function.update (fun _ => none) "x" (some 0)
    files := fun _ => none
    mu := .free }

/-! ## Basic facts about the in-memory operations -/

section TempRepositoryLemmas

variable (repo : TempRepository) (heap : Heap)

/-- With the mutex free, `CreateFolder` on a live pointer is the body between
`Lock` and the deferred `Unlock`. -/
theorem TempRepository.CreateFolder_eq {folder : Addr} {f : Folder} (now : Time)
    (hmu : repo.mu = .free) (hf : heap.folders[folder]? = some f) :
    repo.CreateFolder heap folder now =
      if (repo.folders f.ID).isSome then
        .returns (repo, heap, errors.New "folder already exists")
      else
        .returns ({ repo with folders := Function.update repo.folders f.ID (some folder) },
          { heap with folders :=
              heap.folders.set folder { f with CreationDate := now, ModifiedDate := now } },
          none) := by
  cases repo
  simp only at hmu
  subst hmu
  simp only [TempRepository.CreateFolder, TempRepository.Lock, TempRepository.Unlock,
    RWMutex.Lock, RWMutex.Unlock, Outcome.bind, hf]

theorem TempRepository.UpdateFolder_eq {folder : Addr} {f : Folder} (now : Time)
    (hmu : repo.mu = .free) (hf : heap.folders[folder]? = some f) :
    repo.UpdateFolder heap folder now =
      if (repo.folders f.ID).isSome then
        .returns ({ repo with folders := Function.update repo.folders f.ID (some folder) },
          { heap with folders := heap.folders.set folder { f with ModifiedDate := now } }, none)
      else
        .returns (repo, heap, errors.New "folder does not exist") := by
  cases repo
  simp only at hmu
  subst hmu
  simp only [TempRepository.UpdateFolder, TempRepository.Lock, TempRepository.Unlock,
    RWMutex.Lock, RWMutex.Unlock, Outcome.bind, hf]
  cases h : (_ : Option Addr).isSome <;> simp [h]

theorem TempRepository.DeleteFolder_eq (id : ObjectID) (hmu : repo.mu = .free) :
    repo.DeleteFolder id =
      if (repo.folders id).isSome then
        .returns ({ repo with folders := Function.update repo.folders id none }, none)
      else
        .returns (repo, errors.New "folder not found") := by
  cases repo
  simp only at hmu
  subst hmu
  simp only [TempRepository.DeleteFolder, TempRepository.Lock, TempRepository.Unlock,
    RWMutex.Lock, RWMutex.Unlock, Outcome.bind]
  cases h : (_ : Option Addr).isSome <;> simp [h]

theorem TempRepository.CreateFile_eq {file : Addr} {f : File} (now : Time)
    (hmu : repo.mu = .free) (hf : heap.files[file]? = some f) :
    repo.CreateFile heap file now =
      if (repo.files f.ID).isSome then
        .returns (repo, heap, errors.New "file already exists")
      else
        .returns ({ repo with files := Function.update repo.files f.ID (some file) },
          { heap with files :=
              heap.files.set file { f with CreationDate := now, ModifiedDate := now } },
          none) := by
  cases repo
  simp only at hmu
  subst hmu
  simp only [TempRepository.CreateFile, TempRepository.Lock, TempRepository.Unlock,
    RWMutex.Lock, RWMutex.Unlock, Outcome.bind, hf]

theorem TempRepository.UpdateFile_eq {file : Addr} {f : File} (now : Time)
    (hmu : repo.mu = .free) (hf : heap.files[file]? = some f) :
    repo.UpdateFile heap file now =
      if (repo.files f.ID).isSome then
        .returns ({ repo with files := Function.update repo.files f.ID (some file) },
          { heap with files := heap.files.set file { f with ModifiedDate := now } }, none)
      else
        .returns (repo, heap, errors.New "file does not exist") := by
  cases repo
  simp only at hmu
  subst hmu
  simp only [TempRepository.UpdateFile, TempRepository.Lock, TempRepository.Unlock,
    RWMutex.Lock, RWMutex.Unlock, Outcome.bind, hf]
  cases h : (_ : Option Addr).isSome <;> simp [h]

theorem TempRepository.DeleteFile_eq (id : ObjectID) (hmu : repo.mu = .free) :
    repo.DeleteFile id =
      if (repo.files id).isSome then
        .returns ({ repo with files := Function.update repo.files id none }, none)
      else
        .returns (repo, errors.New "file not found") := by
  cases repo
  simp only at hmu
  subst hmu
  simp only [TempRepository.DeleteFile, TempRepository.Lock, TempRepository.Unlock,
    RWMutex.Lock, RWMutex.Unlock, Outcome.bind]
  cases h : (_ : Option Addr).isSome <;> simp [h]

/-- A reader gets in unless a writer holds the mutex, and leaves it as it was. -/
theorem TempRepository.GetFolder_eq (id : ObjectID) (hmu : repo.mu ≠ .writer) :
    repo.GetFolder id =
      match repo.folders id with
      | none => .returns (repo, none, errors.New "folder not found")
      | some folder => .returns (repo, some folder, none) := by
  obtain ⟨fo, fi, mu⟩ := repo
  cases mu with
  | writer => exact absurd rfl hmu
  | free =>
    simp only [TempRepository.GetFolder, TempRepository.RLock, TempRepository.RUnlock,
      RWMutex.RLock, RWMutex.RUnlock, Outcome.bind]
  | readers n =>
    simp only [TempRepository.GetFolder, TempRepository.RLock, TempRepository.RUnlock,
      RWMutex.RLock, RWMutex.RUnlock, Outcome.bind]

theorem TempRepository.GetFile_eq (id : ObjectID) (hmu : repo.mu ≠ .writer) :
    repo.GetFile id =
      match repo.files id with
      | none => .returns (repo, none, errors.New "file not found")
      | some file => .returns (repo, some file, none) := by
  obtain ⟨fo, fi, mu⟩ := repo
  cases mu with
  | writer => exact absurd rfl hmu
  | free =>
    simp only [TempRepository.GetFile, TempRepository.RLock, TempRepository.RUnlock,
      RWMutex.RLock, RWMutex.RUnlock, Outcome.bind]
  | readers n =>
    simp only [TempRepository.GetFile, TempRepository.RLock, TempRepository.RUnlock,
      RWMutex.RLock, RWMutex.RUnlock, Outcome.bind]

/-- A writer that returns found the mutex free. -/
theorem TempRepository.Lock_bind_returns {α : Type} {k : TempRepository → Outcome α} {a : α}
    (h : repo.Lock.bind k = .returns a) : repo.mu = .free := by
  cases hm : repo.mu <;>
    simp [TempRepository.Lock, RWMutex.Lock, Outcome.bind, hm] at h ⊢

/-- A reader that returns did not find a writer. -/
theorem TempRepository.RLock_bind_returns {α : Type} {k : TempRepository → Outcome α} {a : α}
    (h : repo.RLock.bind k = .returns a) : repo.mu ≠ .writer := by
  cases hm : repo.mu <;>
    simp [TempRepository.RLock, RWMutex.RLock, Outcome.bind, hm] at h ⊢

end TempRepositoryLemmas

/-! ## What every reachable state satisfies -/

theorem stamped_set {α : Type} (l : List α) (stamp : α → Time) (clock : List Time)
    (i q : Nat) (a : α) (now : Time) (ha : stamp a = now)
    (h : ∃ G, l[q]? = some G ∧ stamp G ∈ clock) :
    ∃ G, (l.set i a)[q]? = some G ∧ stamp G ∈ now :: clock := by
  obtain ⟨G, hG, hm⟩ := h
  by_cases hiq : i = q
  · subst hiq
    have hlt : i < l.length := (List.getElem?_eq_some.mp hG).1
    exact ⟨a, List.getElem?_set_self hlt, by simp [ha]⟩
  · exact ⟨G, by rw [List.getElem?_set_ne hiq]; exact hG, List.mem_cons_of_mem _ hm⟩

theorem stamped_mono {α : Type} (l : List α) (stamp : α → Time) (clock : List Time)
    (q : Nat) (now : Time) (h : ∃ G, l[q]? = some G ∧ stamp G ∈ clock) :
    ∃ G, l[q]? = some G ∧ stamp G ∈ now :: clock := by
  obtain ⟨G, hG, hm⟩ := h
  exact ⟨G, hG, List.mem_cons_of_mem _ hm⟩

theorem stamped_append {α : Type} (l : List α) (stamp : α → Time) (clock : List Time)
    (q : Nat) (a : α) (h : ∃ G, l[q]? = some G ∧ stamp G ∈ clock) :
    ∃ G, (l ++ [a])[q]? = some G ∧ stamp G ∈ clock := by
  obtain ⟨G, hG, hm⟩ := h
  have hlt : q < l.length := (List.getElem?_eq_some.mp hG).1
  exact ⟨G, by rw [List.getElem?_append_left hlt]; exact hG, hm⟩

theorem World.Inv_init : World.init.Inv :=
  ⟨rfl, fun k p h => by simp [World.init, NewTempRepository] at h,
    fun k p h => by simp [World.init, NewTempRepository] at h⟩

theorem World.Inv_step {w w' : World} {c : Call} (hi : w.Inv) (hc : c.handsOff w)
    (h : w.step c = .returns w') : w'.Inv := by
  obtain ⟨hmu, hfo, hfi⟩ := hi
  cases c with
  | writeFolder p f =>
    simp only [World.step] at h
    cases hp : w.heap.folders[p]? with
    | none => simp [hp] at h
    | some old =>
      simp only [hp, Outcome.returns.injEq] at h
      subst h
      refine ⟨hmu, ?_, hfi⟩
      intro k q hq
      have hne : p ≠ q := fun e => hc ⟨k, e ▸ hq⟩
      obtain ⟨G, hG, hm⟩ := hfo k q hq
      exact ⟨G, by simp only [List.getElem?_set_ne hne]; exact hG, hm⟩
  | writeFile p f =>
    simp only [World.step] at h
    cases hp : w.heap.files[p]? with
    | none => simp [hp] at h
    | some old =>
      simp only [hp, Outcome.returns.injEq] at h
      subst h
      refine ⟨hmu, hfo, ?_⟩
      intro k q hq
      have hne : p ≠ q := fun e => hc ⟨k, e ▸ hq⟩
      obtain ⟨G, hG, hm⟩ := hfi k q hq
      exact ⟨G, by simp only [List.getElem?_set_ne hne]; exact hG, hm⟩
  | newFolder f =>
    simp only [World.step, Heap.newFolder, Outcome.returns.injEq] at h
    subst h
    exact ⟨hmu, fun k p hk => stamped_append _ _ _ _ _ (hfo k p hk), hfi⟩
  | newFile f =>
    simp only [World.step, Heap.newFile, Outcome.returns.injEq] at h
    subst h
    exact ⟨hmu, hfo, fun k p hk => stamped_append _ _ _ _ _ (hfi k p hk)⟩
  | CreateFolder folder now =>
    simp only [World.step] at h
    cases hF : w.heap.folders[folder]? with
    | none =>
      simp [TempRepository.CreateFolder, TempRepository.Lock, RWMutex.Lock, hmu,
        Outcome.bind, hF] at h
    | some F =>
      rw [TempRepository.CreateFolder_eq w.repo w.heap now hmu hF] at h
      split at h
      · simp only [Outcome.bind, World.tick, errors.New, Option.isNone_some,
          Outcome.returns.injEq] at h
        subst h
        exact ⟨hmu, hfo, hfi⟩
      · simp only [Outcome.bind, World.tick, Option.isNone_none, Outcome.returns.injEq] at h
        subst h
        refine ⟨hmu, ?_, fun k p hk => stamped_mono _ _ _ _ _ (hfi k p hk)⟩
        intro k p hk
        by_cases hkF : k = F.ID
        · subst hkF
          simp only [Function.update_same, Option.some.injEq] at hk
          subst hk
          have hlt : folder < w.heap.folders.length := (List.getElem?_eq_some.mp hF).1
          exact ⟨_, List.getElem?_set_self hlt, by simp⟩
        · simp only [Function.update_noteq hkF] at hk
          exact stamped_set _ _ _ _ _ _ _ rfl (hfo k p hk)
  | GetFolder id =>
    simp only [World.step] at h
    have hw : w.repo.mu ≠ .writer := by simp [hmu]
    rw [TempRepository.GetFolder_eq w.repo id hw] at h
    split at h <;>
    · simp only [Outcome.bind, Outcome.returns.injEq] at h
      subst h
      exact ⟨hmu, hfo, hfi⟩
  | UpdateFolder folder now =>
    simp only [World.step] at h
    cases hF : w.heap.folders[folder]? with
    | none =>
      simp [TempRepository.UpdateFolder, TempRepository.Lock, RWMutex.Lock, hmu,
        Outcome.bind, hF] at h
    | some F =>
      rw [TempRepository.UpdateFolder_eq w.repo w.heap now hmu hF] at h
      split at h
      · simp only [Outcome.bind, World.tick, Option.isNone_none, Outcome.returns.injEq] at h
        subst h
        refine ⟨hmu, ?_, fun k p hk => stamped_mono _ _ _ _ _ (hfi k p hk)⟩
        intro k p hk
        by_cases hkF : k = F.ID
        · subst hkF
          simp only [Function.update_same, Option.some.injEq] at hk
          subst hk
          have hlt : folder < w.heap.folders.length := (List.getElem?_eq_some.mp hF).1
          exact ⟨_, List.getElem?_set_self hlt, by simp⟩
        · simp only [Function.update_noteq hkF] at hk
          exact stamped_set _ _ _ _ _ _ _ rfl (hfo k p hk)
      · simp only [Outcome.bind, World.tick, errors.New, Option.isNone_some,
          Outcome.returns.injEq] at h
        subst h
        exact ⟨hmu, hfo, hfi⟩
  | DeleteFolder id =>
    simp only [World.step] at h
    rw [TempRepository.DeleteFolder_eq w.repo id hmu] at h
    split at h
    · simp only [Outcome.bind, Outcome.returns.injEq] at h
      subst h
      refine ⟨hmu, ?_, hfi⟩
      intro k p hk
      by_cases hkF : k = id
      · subst hkF
        simp at hk
      · simp only [Function.update_noteq hkF] at hk
        exact hfo k p hk
    · simp only [Outcome.bind, Outcome.returns.injEq] at h
      subst h
      exact ⟨hmu, hfo, hfi⟩
  | CreateFile file now =>
    simp only [World.step] at h
    cases hF : w.heap.files[file]? with
    | none =>
      simp [TempRepository.CreateFile, TempRepository.Lock, RWMutex.Lock, hmu,
        Outcome.bind, hF] at h
    | some F =>
      rw [TempRepository.CreateFile_eq w.repo w.heap now hmu hF] at h
      split at h
      · simp only [Outcome.bind, World.tick, errors.New, Option.isNone_some,
          Outcome.returns.injEq] at h
        subst h
        exact ⟨hmu, hfo, hfi⟩
      · simp only [Outcome.bind, World.tick, Option.isNone_none, Outcome.returns.injEq] at h
        subst h
        refine ⟨hmu, fun k p hk => stamped_mono _ _ _ _ _ (hfo k p hk), ?_⟩
        intro k p hk
        by_cases hkF : k = F.ID
        · subst hkF
          simp only [Function.update_same, Option.some.injEq] at hk
          subst hk
          have hlt : file < w.heap.files.length := (List.getElem?_eq_some.mp hF).1
          exact ⟨_, List.getElem?_set_self hlt, by simp⟩
        · simp only [Function.update_noteq hkF] at hk
          exact stamped_set _ _ _ _ _ _ _ rfl (hfi k p hk)
  | GetFile id =>
    simp only [World.step] at h
    have hw : w.repo.mu ≠ .writer := by simp [hmu]
    rw [TempRepository.GetFile_eq w.repo id hw] at h
    split at h <;>
    · simp only [Outcome.bind, Outcome.returns.injEq] at h
      subst h
      exact ⟨hmu, hfo, hfi⟩
  | UpdateFile file now =>
    simp only [World.step] at h
    cases hF : w.heap.files[file]? with
    | none =>
      simp [TempRepository.UpdateFile, TempRepository.Lock, RWMutex.Lock, hmu,
        Outcome.bind, hF] at h
    | some F =>
      rw [TempRepository.UpdateFile_eq w.repo w.heap now hmu hF] at h
      split at h
      · simp only [Outcome.bind, World.tick, Option.isNone_none, Outcome.returns.injEq] at h
        subst h
        refine ⟨hmu, fun k p hk => stamped_mono _ _ _ _ _ (hfo k p hk), ?_⟩
        intro k p hk
        by_cases hkF : k = F.ID
        · subst hkF
          simp only [Function.update_same, Option.some.injEq] at hk
          subst hk
          have hlt : file < w.heap.files.length := (List.getElem?_eq_some.mp hF).1
          exact ⟨_, List.getElem?_set_self hlt, by simp⟩
        · simp only [Function.update_noteq hkF] at hk
          exact stamped_set _ _ _ _ _ _ _ rfl (hfi k p hk)
      · simp only [Outcome.bind, World.tick, errors.New, Option.isNone_some,
          Outcome.returns.injEq] at h
        subst h
        exact ⟨hmu, hfo, hfi⟩
  | DeleteFile id =>
    simp only [World.step] at h
    rw [TempRepository.DeleteFile_eq w.repo id hmu] at h
    split at h
    · simp only [Outcome.bind, Outcome.returns.injEq] at h
      subst h
      refine ⟨hmu, hfo, ?_⟩
      intro k p hk
      by_cases hkF : k = id
      · subst hkF
        simp at hk
      · simp only [Function.update_noteq hkF] at hk
        exact hfi k p hk
    · simp only [Outcome.bind, Outcome.returns.injEq] at h
      subst h
      exact ⟨hmu, hfo, hfi⟩
  | GetFolderHierarchy ctx folderID =>
    simp only [World.step, TempRepository.GetFolderHierarchy, Outcome.bind,
      Outcome.returns.injEq] at h
    subst h
    exact ⟨hmu, hfo, hfi⟩

theorem World.Inv_run : ∀ (calls : List Call) (w w' : World), w.Inv →
    w.runsHandsOff calls → w.run calls = .returns w' → w'.Inv
  | [], w, w', hi, _, h => by
    simp only [World.run, Outcome.returns.injEq] at h
    subst h
    exact hi
  | c :: cs, w, w', hi, ho, h => by
    simp only [World.run] at h
    cases hs : w.step c with
    | returns w1 =>
      rw [hs] at h
      exact World.Inv_run cs w1 w' (World.Inv_step hi ho.1 hs) (ho.2 w1 hs) h
    | blocks => rw [hs] at h; simp [Outcome.bind] at h
    | panics => rw [hs] at h; simp [Outcome.bind] at h

theorem ReachableHandsOff.inv {w : World} (h : ReachableHandsOff w) : w.Inv := by
  obtain ⟨calls, ho, hc⟩ := h
  exact World.Inv_run calls World.init w World.Inv_init ho hc

theorem ReachableHandsOff.reachable {w : World} (h : ReachableHandsOff w) : Reachable w := by
  obtain ⟨calls, _, hc⟩ := h
  exact ⟨calls, hc⟩

/-- A sequence without writes leaves every struct alone. -/
theorem World.runsHandsOff_of_noWrites : ∀ (calls : List Call) (w : World),
    (calls.all fun c => !c.isWrite) = true → w.runsHandsOff calls
  | [], _, _ => trivial
  | c :: cs, w, h => by
    simp only [List.all_cons, Bool.and_eq_true, Bool.not_eq_true'] at h
    refine ⟨?_, fun w' _ => World.runsHandsOff_of_noWrites cs w' h.2⟩
    cases c <;> simp_all [Call.handsOff, Call.isWrite]

theorem Sample.run_calls : World.init.run Sample.calls = .returns Sample.stored := by
  rfl

theorem Sample.run_beforeUpdate :
    World.init.run (Sample.calls ++ [.newFolder Sample.folderA2, .newFile Sample.fileX2]) =
      .returns Sample.beforeUpdate := by
  rfl

theorem Sample.run_tamperCalls : World.init.run Sample.tamperCalls = .returns Sample.tampered := by
  rfl

theorem Sample.run_renameCalls : World.init.run Sample.renameCalls = .returns Sample.renamed := by
  rfl

theorem Sample.handsOff_stored : ReachableHandsOff Sample.stored :=
  ⟨Sample.calls, World.runsHandsOff_of_noWrites _ _ (by decide), Sample.run_calls⟩

theorem Sample.handsOff_beforeUpdate : ReachableHandsOff Sample.beforeUpdate :=
  ⟨_, World.runsHandsOff_of_noWrites _ _ (by decide), Sample.run_beforeUpdate⟩

/-! ## The in-memory backend -/

/-- C1: in the in-memory backend, for every store state and every folder struct
`F` whose ID is not a key of the folder map, `CreateFolder(F)` succeeds and a
following `GetFolder(F.ID)` succeeds and returns a folder equal to `F` in ID,
User, ParentID and Name, with CreationDate and ModifiedDate both equal to the
creation time; the same for `CreateFile`/`GetFile` over the file map. -/
theorem C1_create_then_get :
    (∀ (repo : TempRepository) (heap : Heap) (folder : Addr) (F : Folder) (now : Time),
      repo.mu = .free → heap.folders[folder]? = some F → repo.folders F.ID = none →
      ∃ repo' heap' G,
        repo.CreateFolder heap folder now = .returns (repo', heap', none) ∧
        repo'.GetFolder F.ID = .returns (repo', some folder, none) ∧
        heap'.folders[folder]? = some G ∧
        G.ID = F.ID ∧ G.User = F.User ∧ G.ParentID = F.ParentID ∧ G.Name = F.Name ∧
        G.CreationDate = now ∧ G.ModifiedDate = now ∧ G.CreationDate = G.ModifiedDate) ∧
    (∀ (repo : TempRepository) (heap : Heap) (file : Addr) (F : File) (now : Time),
      repo.mu = .free → heap.files[file]? = some F → repo.files F.ID = none →
      ∃ repo' heap' G,
        repo.CreateFile heap file now = .returns (repo', heap', none) ∧
        repo'.GetFile F.ID = .returns (repo', some file, none) ∧
        heap'.files[file]? = some G ∧
        G.ID = F.ID ∧ G.User = F.User ∧ G.FolderID = F.FolderID ∧ G.Name = F.Name ∧
        G.ContentType = F.ContentType ∧ G.Size = F.Size ∧ G.Data = F.Data ∧
        G.CreationDate = now ∧ G.ModifiedDate = now ∧ G.CreationDate = G.ModifiedDate) := by
  constructor
  · intro repo heap folder F now hmu hF hfresh
    have hlt : folder < heap.folders.length := (List.getElem?_eq_some.mp hF).1
    refine ⟨{ repo with folders := Function.update repo.folders F.ID (some folder) },
      { heap with folders :=
          heap.folders.set folder { F with CreationDate := now, ModifiedDate := now } },
      { F with CreationDate := now, ModifiedDate := now }, ?_, ?_, ?_,
      rfl, rfl, rfl, rfl, rfl, rfl, rfl⟩
    · rw [TempRepository.CreateFolder_eq repo heap now hmu hF]
      simp [hfresh]
    · rw [TempRepository.GetFolder_eq _ _ (by simp [hmu])]
      simp
    · simp [hlt]
  · intro repo heap file F now hmu hF hfresh
    have hlt : file < heap.files.length := (List.getElem?_eq_some.mp hF).1
    refine ⟨{ repo with files := Function.update repo.files F.ID (some file) },
      { heap with files :=
          heap.files.set file { F with CreationDate := now, ModifiedDate := now } },
      { F with CreationDate := now, ModifiedDate := now }, ?_, ?_, ?_,
      rfl, rfl, rfl, rfl, rfl, rfl, rfl, rfl, rfl, rfl⟩
    · rw [TempRepository.CreateFile_eq repo heap now hmu hF]
      simp [hfresh]
    · rw [TempRepository.GetFile_eq _ _ (by simp [hmu])]
      simp
    · simp [hlt]

/-- C1 at the sample folder and the sample file, created in a new repository at time 7. -/
theorem C1_create_then_get_witness :
    (∃ repo' heap' G,
      NewTempRepository.CreateFolder Sample.heap 0 7 = .returns (repo', heap', none) ∧
      repo'.GetFolder "a" = .returns (repo', some 0, none) ∧
      heap'.folders[0]? = some G ∧
      G.ID = "a" ∧ G.User = "u" ∧ G.ParentID = none ∧ G.Name = "docs" ∧
      G.CreationDate = 7 ∧ G.ModifiedDate = 7 ∧ G.CreationDate = G.ModifiedDate) ∧
    (∃ repo' heap' G,
      NewTempRepository.CreateFile Sample.heap 0 7 = .returns (repo', heap', none) ∧
      repo'.GetFile "x" = .returns (repo', some 0, none) ∧
      heap'.files[0]? = some G ∧
      G.ID = "x" ∧ G.User = "u" ∧ G.FolderID = "a" ∧ G.Name = "notes.txt" ∧
      G.ContentType = "text/plain" ∧ G.Size = 2 ∧ G.Data = [104, 105] ∧
      G.CreationDate = 7 ∧ G.ModifiedDate = 7 ∧ G.CreationDate = G.ModifiedDate) :=
  ⟨C1_create_then_get.1 NewTempRepository Sample.heap 0 Sample.folderA 7 rfl rfl rfl,
   C1_create_then_get.2 NewTempRepository Sample.heap 0 Sample.fileX 7 rfl rfl rfl⟩

/-- C2: in the in-memory backend, for every store state and every folder struct
`F` whose ID is already a key of the folder map, `CreateFolder(F)` fails with the
already-exists error, and the repository and every struct on the heap, so also
the pointer stored under `F.ID` and the record it points to, are exactly as
before the call; the same for `CreateFile`. -/
theorem C2_create_existing_fails :
    (∀ (repo : TempRepository) (heap : Heap) (folder : Addr) (F : Folder) (now : Time)
        (stored : Addr),
      repo.mu = .free → heap.folders[folder]? = some F → repo.folders F.ID = some stored →
      ∃ repo' heap',
        repo.CreateFolder heap folder now =
          .returns (repo', heap', errors.New "folder already exists") ∧
        repo'.folders F.ID = some stored ∧ heap'.folders[stored]? = heap.folders[stored]? ∧
        repo'.folders = repo.folders ∧ repo' = repo ∧ heap' = heap) ∧
    (∀ (repo : TempRepository) (heap : Heap) (file : Addr) (F : File) (now : Time)
        (stored : Addr),
      repo.mu = .free → heap.files[file]? = some F → repo.files F.ID = some stored →
      ∃ repo' heap',
        repo.CreateFile heap file now =
          .returns (repo', heap', errors.New "file already exists") ∧
        repo'.files F.ID = some stored ∧ heap'.files[stored]? = heap.files[stored]? ∧
        repo'.files = repo.files ∧ repo' = repo ∧ heap' = heap) := by
  constructor
  · intro repo heap folder F now stored hmu hF hstored
    refine ⟨repo, heap, ?_, hstored, rfl, rfl, rfl, rfl⟩
    rw [TempRepository.CreateFolder_eq repo heap now hmu hF]
    simp [hstored]
  · intro repo heap file F now stored hmu hF hstored
    refine ⟨repo, heap, ?_, hstored, rfl, rfl, rfl, rfl⟩
    rw [TempRepository.CreateFile_eq repo heap now hmu hF]
    simp [hstored]

/-- C2 in the sample repository, where "a" and "x" are taken: a second `Create*`
of a struct with the same ID, tried at time 9. -/
theorem C2_create_existing_fails_witness :
    (∃ repo' heap',
      Sample.repo.CreateFolder Sample.heap 0 9 =
        .returns (repo', heap', errors.New "folder already exists") ∧
      repo'.folders "a" = some 0 ∧ heap'.folders[0]? = Sample.heap.folders[0]? ∧
      repo'.folders = Sample.repo.folders ∧ repo' = Sample.repo ∧ heap' = Sample.heap) ∧
    (∃ repo' heap',
      Sample.repo.CreateFile Sample.heap 0 9 =
        .returns (repo', heap', errors.New "file already exists") ∧
      repo'.files "x" = some 0 ∧ heap'.files[0]? = Sample.heap.files[0]? ∧
      repo'.files = Sample.repo.files ∧ repo' = Sample.repo ∧ heap' = Sample.heap) :=
  ⟨C2_create_existing_fails.1 Sample.repo Sample.heap 0 Sample.folderA 9 0 rfl rfl
      (by simp [Sample.repo, Sample.folderA]),
   C2_create_existing_fails.2 Sample.repo Sample.heap 0 Sample.fileX 9 0 rfl rfl
      (by simp [Sample.repo, Sample.fileX])⟩

/-- C3, where the code departs from it: in the state reached by creating the folder
"a" and the file "x" at time 5, by a caller that never writes to a struct the
repository holds, an `UpdateFolder`/`UpdateFile` with a struct the
caller built anew (CreationDate left at its zero value) succeeds, and the record
stored under the ID afterwards has CreationDate 0 where the record stored there
before had 5: the update replaces the stored pointer by the caller's struct
wholesale, CreationDate included. -/
theorem C3_update_replaces_creation_date :
    ReachableHandsOff Sample.beforeUpdate ∧
    (∃ repo' heap' before after,
      Sample.beforeUpdate.folderAt "a" = some before ∧
      Sample.beforeUpdate.repo.UpdateFolder Sample.beforeUpdate.heap 1 6 =
        .returns (repo', heap', none) ∧
      ({ repo := repo', heap := heap', clock := [6, 5, 5] } : World).folderAt "a" = some after ∧
      before.CreationDate = 5 ∧ after.CreationDate = 0) ∧
    (∃ repo' heap' before after,
      Sample.beforeUpdate.fileAt "x" = some before ∧
      Sample.beforeUpdate.repo.UpdateFile Sample.beforeUpdate.heap 1 6 =
        .returns (repo', heap', none) ∧
      ({ repo := repo', heap := heap', clock := [6, 5, 5] } : World).fileAt "x" = some after ∧
      before.CreationDate = 5 ∧ after.CreationDate = 0) :=
  ⟨Sample.handsOff_beforeUpdate,
   ⟨_, _, _, _, rfl, rfl, rfl, rfl, rfl⟩,
   ⟨_, _, _, _, rfl, rfl, rfl, rfl, rfl⟩⟩

/-- C4, where the code differs: a caller creates "a" and "x" at time 5, sets the
ModifiedDate of the two stored structs to 100 through the pointers it kept, and
updates both at time 6 with structs built anew. The clock readings 5, 5, 6 are
non-decreasing and both updates succeed, but the records stored before the
updates carry ModifiedDate 100, which is greater than the 6 the updates set. -/
theorem C4_prior_modified_date_counterexample :
    Reachable Sample.tampered ∧ clockNonDecreasing (6 :: Sample.tampered.clock) ∧
    (∃ repo' heap' before after,
      Sample.tampered.folderAt "a" = some before ∧
      Sample.tampered.repo.UpdateFolder Sample.tampered.heap 1 6 =
        .returns (repo', heap', none) ∧
      ({ repo := repo', heap := heap', clock := [6, 5, 5] } : World).folderAt "a"
        = some after ∧
      before.ModifiedDate = 100 ∧ after.ModifiedDate = 6 ∧
      ¬ before.ModifiedDate ≤ after.ModifiedDate) ∧
    (∃ repo' heap' before after,
      Sample.tampered.fileAt "x" = some before ∧
      Sample.tampered.repo.UpdateFile Sample.tampered.heap 1 6 =
        .returns (repo', heap', none) ∧
      ({ repo := repo', heap := heap', clock := [6, 5, 5] } : World).fileAt "x"
        = some after ∧
      before.ModifiedDate = 100 ∧ after.ModifiedDate = 6 ∧
      ¬ before.ModifiedDate ≤ after.ModifiedDate) :=
  ⟨⟨_, Sample.run_tamperCalls⟩, by unfold clockNonDecreasing; decide,
   ⟨_, _, _, _, rfl, rfl, rfl, rfl, rfl, by decide⟩,
   ⟨_, _, _, _, rfl, rfl, rfl, rfl, rfl, by decide⟩⟩

/-- C4 as amended: in the in-memory backend, for every store state reached from
the empty store by a sequence of caller steps whose clock readings, the update's
included, are non-decreasing and none of which writes to a struct while the
repository holds its pointer, and every folder struct `F` whose ID is a key of
the folder map, `UpdateFolder(F)` succeeds, the record then stored under `F.ID`
carries `F`'s ParentID, Name and User, and its ModifiedDate is the clock reading
of the update, which is at least the ModifiedDate of the record stored there
before. The same for `UpdateFile` with FolderID, Name, ContentType, Size and
Data. (Third and fourth part:) in every state whatever, with the mutex free, the
update of a live struct whose ID is a key succeeds, stores the caller's pointer
and leaves the struct with those fields and the update's reading as its
ModifiedDate; only the comparison with the earlier ModifiedDate needs the
condition on the caller. -/
theorem C4_update_overwrites_and_stamps :
    (∀ (w : World) (folder : Addr) (F : Folder) (now : Time),
      ReachableHandsOff w → clockNonDecreasing (now :: w.clock) →
      w.heap.folders[folder]? = some F → (w.repo.folders F.ID).isSome →
      ∃ repo' heap' before after,
        w.folderAt F.ID = some before ∧
        w.repo.UpdateFolder w.heap folder now = .returns (repo', heap', none) ∧
        ({ repo := repo', heap := heap', clock := now :: w.clock } : World).folderAt F.ID
          = some after ∧
        after.ParentID = F.ParentID ∧ after.Name = F.Name ∧ after.User = F.User ∧
        after.ModifiedDate = now ∧ before.ModifiedDate ≤ after.ModifiedDate) ∧
    (∀ (w : World) (file : Addr) (F : File) (now : Time),
      ReachableHandsOff w → clockNonDecreasing (now :: w.clock) →
      w.heap.files[file]? = some F → (w.repo.files F.ID).isSome →
      ∃ repo' heap' before after,
        w.fileAt F.ID = some before ∧
        w.repo.UpdateFile w.heap file now = .returns (repo', heap', none) ∧
        ({ repo := repo', heap := heap', clock := now :: w.clock } : World).fileAt F.ID
          = some after ∧
        after.FolderID = F.FolderID ∧ after.Name = F.Name ∧
        after.ContentType = F.ContentType ∧ after.Size = F.Size ∧ after.Data = F.Data ∧
        after.ModifiedDate = now ∧ before.ModifiedDate ≤ after.ModifiedDate) ∧
    (∀ (repo : TempRepository) (heap : Heap) (folder : Addr) (F : Folder) (now : Time),
      repo.mu = .free → heap.folders[folder]? = some F → (repo.folders F.ID).isSome →
      ∃ repo' heap' after,
        repo.UpdateFolder heap folder now = .returns (repo', heap', none) ∧
        repo'.folders F.ID = some folder ∧ heap'.folders[folder]? = some after ∧
        after.ParentID = F.ParentID ∧ after.Name = F.Name ∧ after.User = F.User ∧
        after.ModifiedDate = now) ∧
    (∀ (repo : TempRepository) (heap : Heap) (file : Addr) (F : File) (now : Time),
      repo.mu = .free → heap.files[file]? = some F → (repo.files F.ID).isSome →
      ∃ repo' heap' after,
        repo.UpdateFile heap file now = .returns (repo', heap', none) ∧
        repo'.files F.ID = some file ∧ heap'.files[file]? = some after ∧
        after.FolderID = F.FolderID ∧ after.Name = F.Name ∧
        after.ContentType = F.ContentType ∧ after.Size = F.Size ∧ after.Data = F.Data ∧
        after.ModifiedDate = now) := by
  refine ⟨?_, ?_, ?_, ?_⟩
  · intro w folder F now hr hclock hF hin
    obtain ⟨hmu, hfo, -⟩ := hr.inv
    obtain ⟨p, hp⟩ := Option.isSome_iff_exists.mp hin
    obtain ⟨G, hG, hGm⟩ := hfo _ p hp
    have hle : G.ModifiedDate ≤ now := List.rel_of_pairwise_cons hclock hGm
    have hlt : folder < w.heap.folders.length := (List.getElem?_eq_some.mp hF).1
    refine ⟨{ w.repo with folders := Function.update w.repo.folders F.ID (some folder) },
      { w.heap with folders := w.heap.folders.set folder { F with ModifiedDate := now } },
      G, { F with ModifiedDate := now }, ?_, ?_, ?_, rfl, rfl, rfl, rfl, hle⟩
    · simp [World.folderAt, hp, hG]
    · rw [TempRepository.UpdateFolder_eq w.repo w.heap now hmu hF]
      simp only [hin, if_true]
    · simp [World.folderAt, hlt]
  · intro w file F now hr hclock hF hin
    obtain ⟨hmu, -, hfi⟩ := hr.inv
    obtain ⟨p, hp⟩ := Option.isSome_iff_exists.mp hin
    obtain ⟨G, hG, hGm⟩ := hfi _ p hp
    have hle : G.ModifiedDate ≤ now := List.rel_of_pairwise_cons hclock hGm
    have hlt : file < w.heap.files.length := (List.getElem?_eq_some.mp hF).1
    refine ⟨{ w.repo with files := Function.update w.repo.files F.ID (some file) },
      { w.heap with files := w.heap.files.set file { F with ModifiedDate := now } },
      G, { F with ModifiedDate := now }, ?_, ?_, ?_, rfl, rfl, rfl, rfl, rfl, rfl, hle⟩
    · simp [World.fileAt, hp, hG]
    · rw [TempRepository.UpdateFile_eq w.repo w.heap now hmu hF]
      simp only [hin, if_true]
    · simp [World.fileAt, hlt]
  · intro repo heap folder F now hmu hF hin
    have hlt : folder < heap.folders.length := (List.getElem?_eq_some.mp hF).1
    refine ⟨{ repo with folders := Function.update repo.folders F.ID (some folder) },
      { heap with folders := heap.folders.set folder { F with ModifiedDate := now } },
      { F with ModifiedDate := now }, ?_, ?_, ?_, rfl, rfl, rfl, rfl⟩
    · rw [TempRepository.UpdateFolder_eq repo heap now hmu hF]
      simp only [hin, if_true]
    · simp
    · simp [hlt]
  · intro repo heap file F now hmu hF hin
    have hlt : file < heap.files.length := (List.getElem?_eq_some.mp hF).1
    refine ⟨{ repo with files := Function.update repo.files F.ID (some file) },
      { heap with files := heap.files.set file { F with ModifiedDate := now } },
      { F with ModifiedDate := now }, ?_, ?_, ?_, rfl, rfl, rfl, rfl, rfl, rfl⟩
    · rw [TempRepository.UpdateFile_eq repo heap now hmu hF]
      simp only [hin, if_true]
    · simp
    · simp [hlt]

/-- C4 as amended, in the state reached by creating "a" and "x" at time 5 with
no write by the caller: the updates with the renamed folder struct and the new
file content, at time 6; and, for the part that holds in every state, the same
updates in the state in which the caller has written to the stored structs. -/
theorem C4_update_overwrites_and_stamps_witness :
    (∃ repo' heap' before after,
      Sample.beforeUpdate.folderAt "a" = some before ∧
      Sample.beforeUpdate.repo.UpdateFolder Sample.beforeUpdate.heap 1 6 =
        .returns (repo', heap', none) ∧
      ({ repo := repo', heap := heap', clock := [6, 5, 5] } : World).folderAt "a"
        = some after ∧
      after.ParentID = none ∧ after.Name = "papers" ∧ after.User = "u" ∧
      after.ModifiedDate = 6 ∧ before.ModifiedDate ≤ after.ModifiedDate) ∧
    (∃ repo' heap' before after,
      Sample.beforeUpdate.fileAt "x" = some before ∧
      Sample.beforeUpdate.repo.UpdateFile Sample.beforeUpdate.heap 1 6 =
        .returns (repo', heap', none) ∧
      ({ repo := repo', heap := heap', clock := [6, 5, 5] } : World).fileAt "x"
        = some after ∧
      after.FolderID = "a" ∧ after.Name = "notes.txt" ∧
      after.ContentType = "text/plain" ∧ after.Size = 3 ∧ after.Data = [104, 101, 121] ∧
      after.ModifiedDate = 6 ∧ before.ModifiedDate ≤ after.ModifiedDate) ∧
    (∃ repo' heap' after,
      Sample.tampered.repo.UpdateFolder Sample.tampered.heap 1 6 =
        .returns (repo', heap', none) ∧
      repo'.folders "a" = some 1 ∧ heap'.folders[1]? = some after ∧
      after.ParentID = none ∧ after.Name = "papers" ∧ after.User = "u" ∧
      after.ModifiedDate = 6) ∧
    (∃ repo' heap' after,
      Sample.tampered.repo.UpdateFile Sample.tampered.heap 1 6 =
        .returns (repo', heap', none) ∧
      repo'.files "x" = some 1 ∧ heap'.files[1]? = some after ∧
      after.FolderID = "a" ∧ after.Name = "notes.txt" ∧
      after.ContentType = "text/plain" ∧ after.Size = 3 ∧ after.Data = [104, 101, 121] ∧
      after.ModifiedDate = 6) :=
  ⟨C4_update_overwrites_and_stamps.1 Sample.beforeUpdate 1 Sample.folderA2 6
      Sample.handsOff_beforeUpdate (by unfold clockNonDecreasing; decide) rfl rfl,
   C4_update_overwrites_and_stamps.2.1 Sample.beforeUpdate 1 Sample.fileX2 6
      Sample.handsOff_beforeUpdate (by unfold clockNonDecreasing; decide) rfl rfl,
   C4_update_overwrites_and_stamps.2.2.1 Sample.tampered.repo Sample.tampered.heap 1
      Sample.folderA2 6 rfl rfl rfl,
   C4_update_overwrites_and_stamps.2.2.2 Sample.tampered.repo Sample.tampered.heap 1
      Sample.fileX2 6 rfl rfl rfl⟩

/-- C5: in the in-memory backend, for every store state and every ID that is not
a key of the folder map, `GetFolder(id)`, `UpdateFolder(F)` with `F.ID = id` and
`DeleteFolder(id)` each fail with their not-found error (`GetFolder` returning
the nil pointer); each of them succeeds when the ID is a key. The same for
`GetFile`, `UpdateFile` and `DeleteFile` over the file map. -/
theorem C5_not_found_iff_absent :
    ((∀ (repo : TempRepository) (id : ObjectID), repo.mu ≠ .writer → repo.folders id = none →
        repo.GetFolder id = .returns (repo, none, errors.New "folder not found")) ∧
     (∀ (repo : TempRepository) (heap : Heap) (folder : Addr) (F : Folder) (now : Time),
        repo.mu = .free → heap.folders[folder]? = some F → repo.folders F.ID = none →
        repo.UpdateFolder heap folder now =
          .returns (repo, heap, errors.New "folder does not exist")) ∧
     (∀ (repo : TempRepository) (id : ObjectID), repo.mu = .free → repo.folders id = none →
        repo.DeleteFolder id = .returns (repo, errors.New "folder not found")) ∧
     (∀ (repo : TempRepository) (id : ObjectID) (stored : Addr),
        repo.mu ≠ .writer → repo.folders id = some stored →
        repo.GetFolder id = .returns (repo, some stored, none)) ∧
     (∀ (repo : TempRepository) (heap : Heap) (folder : Addr) (F : Folder) (now : Time)
        (stored : Addr),
        repo.mu = .free → heap.folders[folder]? = some F → repo.folders F.ID = some stored →
        ∃ repo' heap', repo.UpdateFolder heap folder now = .returns (repo', heap', none)) ∧
     (∀ (repo : TempRepository) (id : ObjectID) (stored : Addr),
        repo.mu = .free → repo.folders id = some stored →
        ∃ repo', repo.DeleteFolder id = .returns (repo', none))) ∧
    ((∀ (repo : TempRepository) (id : ObjectID), repo.mu ≠ .writer → repo.files id = none →
        repo.GetFile id = .returns (repo, none, errors.New "file not found")) ∧
     (∀ (repo : TempRepository) (heap : Heap) (file : Addr) (F : File) (now : Time),
        repo.mu = .free → heap.files[file]? = some F → repo.files F.ID = none →
        repo.UpdateFile heap file now =
          .returns (repo, heap, errors.New "file does not exist")) ∧
     (∀ (repo : TempRepository) (id : ObjectID), repo.mu = .free → repo.files id = none →
        repo.DeleteFile id = .returns (repo, errors.New "file not found")) ∧
     (∀ (repo : TempRepository) (id : ObjectID) (stored : Addr),
        repo.mu ≠ .writer → repo.files id = some stored →
        repo.GetFile id = .returns (repo, some stored, none)) ∧
     (∀ (repo : TempRepository) (heap : Heap) (file : Addr) (F : File) (now : Time)
        (stored : Addr),
        repo.mu = .free → heap.files[file]? = some F → repo.files F.ID = some stored →
        ∃ repo' heap', repo.UpdateFile heap file now = .returns (repo', heap', none)) ∧
     (∀ (repo : TempRepository) (id : ObjectID) (stored : Addr),
        repo.mu = .free → repo.files id = some stored →
        ∃ repo', repo.DeleteFile id = .returns (repo', none))) := by
  refine ⟨⟨?_, ?_, ?_, ?_, ?_, ?_⟩, ⟨?_, ?_, ?_, ?_, ?_, ?_⟩⟩
  · intro repo id hmu h
    rw [TempRepository.GetFolder_eq repo id hmu, h]
  · intro repo heap folder F now hmu hF h
    rw [TempRepository.UpdateFolder_eq repo heap now hmu hF]
    simp [h]
  · intro repo id hmu h
    rw [TempRepository.DeleteFolder_eq repo id hmu]
    simp [h]
  · intro repo id stored hmu h
    rw [TempRepository.GetFolder_eq repo id hmu, h]
  · intro repo heap folder F now stored hmu hF h
    rw [TempRepository.UpdateFolder_eq repo heap now hmu hF]
    simp [h]
  · intro repo id stored hmu h
    rw [TempRepository.DeleteFolder_eq repo id hmu]
    simp [h]
  · intro repo id hmu h
    rw [TempRepository.GetFile_eq repo id hmu, h]
  · intro repo heap file F now hmu hF h
    rw [TempRepository.UpdateFile_eq repo heap now hmu hF]
    simp [h]
  · intro repo id hmu h
    rw [TempRepository.DeleteFile_eq repo id hmu]
    simp [h]
  · intro repo id stored hmu h
    rw [TempRepository.GetFile_eq repo id hmu, h]
  · intro repo heap file F now stored hmu hF h
    rw [TempRepository.UpdateFile_eq repo heap now hmu hF]
    simp [h]
  · intro repo id stored hmu h
    rw [TempRepository.DeleteFile_eq repo id hmu]
    simp [h]

/-- C5 on the new repository, where "a" and "x" are absent, and on the sample
repository, where they are present. -/
theorem C5_not_found_iff_absent_witness :
    (NewTempRepository.GetFolder "a" =
        .returns (NewTempRepository, none, errors.New "folder not found") ∧
     NewTempRepository.UpdateFolder Sample.heap 0 9 =
        .returns (NewTempRepository, Sample.heap, errors.New "folder does not exist") ∧
     NewTempRepository.DeleteFolder "a" =
        .returns (NewTempRepository, errors.New "folder not found") ∧
     Sample.repo.GetFolder "a" = .returns (Sample.repo, some 0, none) ∧
     (∃ repo' heap', Sample.repo.UpdateFolder Sample.heap 0 9 = .returns (repo', heap', none)) ∧
     (∃ repo', Sample.repo.DeleteFolder "a" = .returns (repo', none))) ∧
    (NewTempRepository.GetFile "x" =
        .returns (NewTempRepository, none, errors.New "file not found") ∧
     NewTempRepository.UpdateFile Sample.heap 0 9 =
        .returns (NewTempRepository, Sample.heap, errors.New "file does not exist") ∧
     NewTempRepository.DeleteFile "x" =
        .returns (NewTempRepository, errors.New "file not found") ∧
     Sample.repo.GetFile "x" = .returns (Sample.repo, some 0, none) ∧
     (∃ repo' heap', Sample.repo.UpdateFile Sample.heap 0 9 = .returns (repo', heap', none)) ∧
     (∃ repo', Sample.repo.DeleteFile "x" = .returns (repo', none))) :=
  have inA : Sample.repo.folders "a" = some 0 := by simp [Sample.repo]
  have inX : Sample.repo.files "x" = some 0 := by simp [Sample.repo]
  ⟨⟨C5_not_found_iff_absent.1.1 NewTempRepository "a" (by simp [NewTempRepository]) rfl,
    C5_not_found_iff_absent.1.2.1 NewTempRepository Sample.heap 0 Sample.folderA 9 rfl rfl rfl,
    C5_not_found_iff_absent.1.2.2.1 NewTempRepository "a" rfl rfl,
    C5_not_found_iff_absent.1.2.2.2.1 Sample.repo "a" 0 (by simp [Sample.repo]) inA,
    C5_not_found_iff_absent.1.2.2.2.2.1 Sample.repo Sample.heap 0 Sample.folderA 9 0 rfl rfl inA,
    C5_not_found_iff_absent.1.2.2.2.2.2 Sample.repo "a" 0 rfl inA⟩,
   ⟨C5_not_found_iff_absent.2.1 NewTempRepository "x" (by simp [NewTempRepository]) rfl,
    C5_not_found_iff_absent.2.2.1 NewTempRepository Sample.heap 0 Sample.fileX 9 rfl rfl rfl,
    C5_not_found_iff_absent.2.2.2.1 NewTempRepository "x" rfl rfl,
    C5_not_found_iff_absent.2.2.2.2.1 Sample.repo "x" 0 (by simp [Sample.repo]) inX,
    C5_not_found_iff_absent.2.2.2.2.2.1 Sample.repo Sample.heap 0 Sample.fileX 9 0 rfl rfl inX,
    C5_not_found_iff_absent.2.2.2.2.2.2 Sample.repo "x" 0 rfl inX⟩⟩

/-- C6: in the in-memory backend, for every store state and every ID that is a
key of the folder map, `DeleteFolder(id)` succeeds and a following
`GetFolder(id)` fails with the not-found error and the nil pointer; the same
for `DeleteFile` followed by `GetFile`. -/
theorem C6_delete_then_get :
    (∀ (repo : TempRepository) (id : ObjectID) (stored : Addr),
      repo.mu = .free → repo.folders id = some stored →
      ∃ repo', repo.DeleteFolder id = .returns (repo', none) ∧
        repo'.GetFolder id = .returns (repo', none, errors.New "folder not found")) ∧
    (∀ (repo : TempRepository) (id : ObjectID) (stored : Addr),
      repo.mu = .free → repo.files id = some stored →
      ∃ repo', repo.DeleteFile id = .returns (repo', none) ∧
        repo'.GetFile id = .returns (repo', none, errors.New "file not found")) := by
  constructor
  · intro repo id stored hmu h
    refine ⟨{ repo with folders := Function.update repo.folders id none }, ?_, ?_⟩
    · rw [TempRepository.DeleteFolder_eq repo id hmu]
      simp [h]
    · rw [TempRepository.GetFolder_eq _ _ (by simp [hmu])]
      simp
  · intro repo id stored hmu h
    refine ⟨{ repo with files := Function.update repo.files id none }, ?_, ?_⟩
    · rw [TempRepository.DeleteFile_eq repo id hmu]
      simp [h]
    · rw [TempRepository.GetFile_eq _ _ (by simp [hmu])]
      simp

/-- C6 on the sample repository: deleting "a" and "x". -/
theorem C6_delete_then_get_witness :
    (∃ repo', Sample.repo.DeleteFolder "a" = .returns (repo', none) ∧
      repo'.GetFolder "a" = .returns (repo', none, errors.New "folder not found")) ∧
    (∃ repo', Sample.repo.DeleteFile "x" = .returns (repo', none) ∧
      repo'.GetFile "x" = .returns (repo', none, errors.New "file not found")) :=
  ⟨C6_delete_then_get.1 Sample.repo "a" 0 rfl (by simp [Sample.repo]),
   C6_delete_then_get.2 Sample.repo "x" 0 rfl (by simp [Sample.repo])⟩

/-- C7: in the in-memory backend, a successful `DeleteFolder(id)` removes exactly
the key `id` from the folder map and nothing else: every other folder, also every
folder whose ParentID is `id`, and every file, also every file whose FolderID is
`id`, is still stored under its ID, by the same pointer and with all its fields
unchanged. -/
theorem C7_delete_folder_frame (w : World) (id : ObjectID) (repo' : TempRepository)
    (h : w.repo.DeleteFolder id = .returns (repo', none)) :
    (w.repo.folders id).isSome ∧ repo'.folders id = none ∧
    (∀ k, k ≠ id → repo'.folders k = w.repo.folders k) ∧
    repo'.files = w.repo.files ∧
    (∀ k, k ≠ id → ({ w with repo := repo' } : World).folderAt k = w.folderAt k) ∧
    (∀ k, ({ w with repo := repo' } : World).fileAt k = w.fileAt k) ∧
    (∀ k G, k ≠ id → w.folderAt k = some G → G.ParentID = some id →
      ({ w with repo := repo' } : World).folderAt k = some G) ∧
    (∀ k X, w.fileAt k = some X → X.FolderID = id →
      ({ w with repo := repo' } : World).fileAt k = some X) := by
  have hmu := TempRepository.Lock_bind_returns w.repo h
  rw [TempRepository.DeleteFolder_eq w.repo id hmu] at h
  split at h
  · rename_i hin
    simp only [Outcome.returns.injEq, Prod.mk.injEq, and_true] at h
    subst h
    have hk : ∀ k, k ≠ id → Function.update w.repo.folders id none k = w.repo.folders k :=
      fun k hk => Function.update_noteq hk _ _
    refine ⟨hin, by simp, hk, rfl, ?_, fun k => rfl, ?_, fun k X hX _ => hX⟩
    · intro k hne
      simp [World.folderAt, hk k hne]
    · intro k G hne hG _
      simpa [World.folderAt, hk k hne] using hG
  · simp [errors.New] at h

/-- C7 on the sample repository extended by a child folder "b" of "a": deleting
"a" leaves "b" and the file "x" (whose FolderID is "a") where they are. -/
theorem C7_delete_folder_frame_witness :
    Sample.world.repo.DeleteFolder "a" = .returns (Sample.afterDelete, none) ∧
    Sample.afterDelete.folders "a" = none ∧
    ({ Sample.world with repo := Sample.afterDelete } : World).folderAt "b"
      = some Sample.folderB ∧
    ({ Sample.world with repo := Sample.afterDelete } : World).fileAt "x"
      = some Sample.fileX :=
  have h : Sample.world.repo.DeleteFolder "a" = .returns (Sample.afterDelete, none) := by
    rw [TempRepository.DeleteFolder_eq _ _ rfl]
    simp [Sample.world, Sample.afterDelete]
  have c := C7_delete_folder_frame Sample.world "a" Sample.afterDelete h
  ⟨h, c.2.1,
   c.2.2.2.2.2.2.1 "b" Sample.folderB (by decide)
     (by simp [World.folderAt, Sample.world, Sample.folderB]) rfl,
   c.2.2.2.2.2.2.2 "x" Sample.fileX (by simp [World.fileAt, Sample.world]) rfl⟩

/-- C8: in the in-memory backend, every operation that returns an error leaves
the repository (folder map, file map and mutex) and the heap exactly as they
were before the call; `GetFolder`, `GetFile` and `GetFolderHierarchy` leave the
repository unchanged whenever they return, also on success. -/
theorem C8_error_leaves_store_unchanged :
    (∀ (repo : TempRepository) (heap : Heap) (folder : Addr) (now : Time)
        (repo' : TempRepository) (heap' : Heap) (err : String),
      repo.CreateFolder heap folder now = .returns (repo', heap', some err) →
      repo' = repo ∧ heap' = heap) ∧
    (∀ (repo : TempRepository) (heap : Heap) (folder : Addr) (now : Time)
        (repo' : TempRepository) (heap' : Heap) (err : String),
      repo.UpdateFolder heap folder now = .returns (repo', heap', some err) →
      repo' = repo ∧ heap' = heap) ∧
    (∀ (repo : TempRepository) (id : ObjectID) (repo' : TempRepository) (err : String),
      repo.DeleteFolder id = .returns (repo', some err) → repo' = repo) ∧
    (∀ (repo : TempRepository) (id : ObjectID) (repo' : TempRepository)
        (result : Option Addr) (err : error),
      repo.GetFolder id = .returns (repo', result, err) → repo' = repo) ∧
    (∀ (repo : TempRepository) (heap : Heap) (file : Addr) (now : Time)
        (repo' : TempRepository) (heap' : Heap) (err : String),
      repo.CreateFile heap file now = .returns (repo', heap', some err) →
      repo' = repo ∧ heap' = heap) ∧
    (∀ (repo : TempRepository) (heap : Heap) (file : Addr) (now : Time)
        (repo' : TempRepository) (heap' : Heap) (err : String),
      repo.UpdateFile heap file now = .returns (repo', heap', some err) →
      repo' = repo ∧ heap' = heap) ∧
    (∀ (repo : TempRepository) (id : ObjectID) (repo' : TempRepository) (err : String),
      repo.DeleteFile id = .returns (repo', some err) → repo' = repo) ∧
    (∀ (repo : TempRepository) (id : ObjectID) (repo' : TempRepository)
        (result : Option Addr) (err : error),
      repo.GetFile id = .returns (repo', result, err) → repo' = repo) ∧
    (∀ (repo : TempRepository) (ctx : Context) (folderID : ObjectID)
        (repo' : TempRepository) (result : Slice Folder) (err : error),
      repo.GetFolderHierarchy ctx folderID = .returns (repo', result, err) →
      repo' = repo) := by
  refine ⟨?_, ?_, ?_, ?_, ?_, ?_, ?_, ?_, ?_⟩
  · intro repo heap folder now repo' heap' err h
    have hmu := TempRepository.Lock_bind_returns repo h
    cases hF : heap.folders[folder]? with
    | none =>
      simp [TempRepository.CreateFolder, TempRepository.Lock, RWMutex.Lock, hmu,
        Outcome.bind, hF] at h
    | some F =>
      rw [TempRepository.CreateFolder_eq repo heap now hmu hF] at h
      split at h <;> simp at h
      exact ⟨h.1.symm, h.2.1.symm⟩
  · intro repo heap folder now repo' heap' err h
    have hmu := TempRepository.Lock_bind_returns repo h
    cases hF : heap.folders[folder]? with
    | none =>
      simp [TempRepository.UpdateFolder, TempRepository.Lock, RWMutex.Lock, hmu,
        Outcome.bind, hF] at h
    | some F =>
      rw [TempRepository.UpdateFolder_eq repo heap now hmu hF] at h
      split at h <;> simp at h
      exact ⟨h.1.symm, h.2.1.symm⟩
  · intro repo id repo' err h
    have hmu := TempRepository.Lock_bind_returns repo h
    rw [TempRepository.DeleteFolder_eq repo id hmu] at h
    split at h <;> simp at h
    exact h.1.symm
  · intro repo id repo' result err h
    have hmu := TempRepository.RLock_bind_returns repo h
    rw [TempRepository.GetFolder_eq repo id hmu] at h
    split at h <;> simp at h <;> exact h.1.symm
  · intro repo heap file now repo' heap' err h
    have hmu := TempRepository.Lock_bind_returns repo h
    cases hF : heap.files[file]? with
    | none =>
      simp [TempRepository.CreateFile, TempRepository.Lock, RWMutex.Lock, hmu,
        Outcome.bind, hF] at h
    | some F =>
      rw [TempRepository.CreateFile_eq repo heap now hmu hF] at h
      split at h <;> simp at h
      exact ⟨h.1.symm, h.2.1.symm⟩
  · intro repo heap file now repo' heap' err h
    have hmu := TempRepository.Lock_bind_returns repo h
    cases hF : heap.files[file]? with
    | none =>
      simp [TempRepository.UpdateFile, TempRepository.Lock, RWMutex.Lock, hmu,
        Outcome.bind, hF] at h
    | some F =>
      rw [TempRepository.UpdateFile_eq repo heap now hmu hF] at h
      split at h <;> simp at h
      exact ⟨h.1.symm, h.2.1.symm⟩
  · intro repo id repo' err h
    have hmu := TempRepository.Lock_bind_returns repo h
    rw [TempRepository.DeleteFile_eq repo id hmu] at h
    split at h <;> simp at h
    exact h.1.symm
  · intro repo id repo' result err h
    have hmu := TempRepository.RLock_bind_returns repo h
    rw [TempRepository.GetFile_eq repo id hmu] at h
    split at h <;> simp at h <;> exact h.1.symm
  · intro repo ctx folderID repo' result err h
    simp [TempRepository.GetFolderHierarchy] at h
    exact h.1.symm

/-- C8 at calls that fail or only read: `Create*` of the IDs taken in the sample
repository, `Update*` and `Delete*` of IDs absent from a new repository, and the
three read operations. -/
theorem C8_error_leaves_store_unchanged_witness :
    (Sample.repo.CreateFolder Sample.heap 0 9 =
        .returns (Sample.repo, Sample.heap, some "folder already exists") ∧
     NewTempRepository.UpdateFolder Sample.heap 0 9 =
        .returns (NewTempRepository, Sample.heap, some "folder does not exist") ∧
     NewTempRepository.DeleteFolder "a" =
        .returns (NewTempRepository, some "folder not found") ∧
     Sample.repo.GetFolder "a" = .returns (Sample.repo, some 0, none) ∧
     Sample.repo.CreateFile Sample.heap 0 9 =
        .returns (Sample.repo, Sample.heap, some "file already exists") ∧
     NewTempRepository.UpdateFile Sample.heap 0 9 =
        .returns (NewTempRepository, Sample.heap, some "file does not exist") ∧
     NewTempRepository.DeleteFile "x" =
        .returns (NewTempRepository, some "file not found") ∧
     Sample.repo.GetFile "zz" = .returns (Sample.repo, none, some "file not found") ∧
     Sample.repo.GetFolderHierarchy { cancelled := false } "a" =
        .returns (Sample.repo, some [], some "not implemented")) ∧
    ((Sample.repo = Sample.repo ∧ Sample.heap = Sample.heap) ∧
     (NewTempRepository = NewTempRepository ∧ Sample.heap = Sample.heap) ∧
     NewTempRepository = NewTempRepository ∧
     Sample.repo = Sample.repo ∧
     (Sample.repo = Sample.repo ∧ Sample.heap = Sample.heap) ∧
     (NewTempRepository = NewTempRepository ∧ Sample.heap = Sample.heap) ∧
     NewTempRepository = NewTempRepository ∧
     Sample.repo = Sample.repo ∧
     Sample.repo = Sample.repo) :=
  have h1 : Sample.repo.CreateFolder Sample.heap 0 9 =
      .returns (Sample.repo, Sample.heap, some "folder already exists") := by
    rw [TempRepository.CreateFolder_eq Sample.repo Sample.heap 9 rfl
      (show Sample.heap.folders[0]? = some Sample.folderA from rfl)]
    simp [Sample.repo, Sample.folderA, errors.New]
  have h2 : NewTempRepository.UpdateFolder Sample.heap 0 9 =
      .returns (NewTempRepository, Sample.heap, some "folder does not exist") := by
    rw [TempRepository.UpdateFolder_eq NewTempRepository Sample.heap 9 rfl
      (show Sample.heap.folders[0]? = some Sample.folderA from rfl)]
    simp [NewTempRepository, errors.New]
  have h3 : NewTempRepository.DeleteFolder "a" =
      .returns (NewTempRepository, some "folder not found") := by
    rw [TempRepository.DeleteFolder_eq NewTempRepository "a" rfl]
    simp [NewTempRepository, errors.New]
  have h4 : Sample.repo.GetFolder "a" = .returns (Sample.repo, some 0, none) := by
    rw [TempRepository.GetFolder_eq Sample.repo "a" (by simp [Sample.repo])]
    simp [Sample.repo]
  have h5 : Sample.repo.CreateFile Sample.heap 0 9 =
      .returns (Sample.repo, Sample.heap, some "file already exists") := by
    rw [TempRepository.CreateFile_eq Sample.repo Sample.heap 9 rfl
      (show Sample.heap.files[0]? = some Sample.fileX from rfl)]
    simp [Sample.repo, Sample.fileX, errors.New]
  have h6 : NewTempRepository.UpdateFile Sample.heap 0 9 =
      .returns (NewTempRepository, Sample.heap, some "file does not exist") := by
    rw [TempRepository.UpdateFile_eq NewTempRepository Sample.heap 9 rfl
      (show Sample.heap.files[0]? = some Sample.fileX from rfl)]
    simp [NewTempRepository, errors.New]
  have h7 : NewTempRepository.DeleteFile "x" =
      .returns (NewTempRepository, some "file not found") := by
    rw [TempRepository.DeleteFile_eq NewTempRepository "x" rfl]
    simp [NewTempRepository, errors.New]
  have h8 : Sample.repo.GetFile "zz" = .returns (Sample.repo, none, some "file not found") := by
    rw [TempRepository.GetFile_eq Sample.repo "zz" (by simp [Sample.repo])]
    simp [Sample.repo, errors.New]
  have h9 : Sample.repo.GetFolderHierarchy { cancelled := false } "a" =
      .returns (Sample.repo, some [], some "not implemented") := rfl
  ⟨⟨h1, h2, h3, h4, h5, h6, h7, h8, h9⟩,
   C8_error_leaves_store_unchanged.1 _ _ _ _ _ _ _ h1,
   C8_error_leaves_store_unchanged.2.1 _ _ _ _ _ _ _ h2,
   C8_error_leaves_store_unchanged.2.2.1 _ _ _ _ h3,
   C8_error_leaves_store_unchanged.2.2.2.1 _ _ _ _ _ h4,
   C8_error_leaves_store_unchanged.2.2.2.2.1 _ _ _ _ _ _ _ h5,
   C8_error_leaves_store_unchanged.2.2.2.2.2.1 _ _ _ _ _ _ _ h6,
   C8_error_leaves_store_unchanged.2.2.2.2.2.2.1 _ _ _ _ h7,
   C8_error_leaves_store_unchanged.2.2.2.2.2.2.2.1 _ _ _ _ _ h8,
   C8_error_leaves_store_unchanged.2.2.2.2.2.2.2.2 _ _ _ _ _ _ h9⟩

/-- C9: in the in-memory backend, for every store state, every context and every
folderID, present or not, `GetFolderHierarchy` returns the empty (non-nil)
sequence together with the not-implemented error, and leaves the repository
as it is. -/
theorem C9_hierarchy_not_implemented (repo : TempRepository) (ctx : Context)
    (folderID : ObjectID) :
    repo.GetFolderHierarchy ctx folderID =
      .returns (repo, some [], errors.New "not implemented") := rfl

/-! ## The mutex and the two maps of the in-memory backend -/

section TempRepositoryLocking

variable (repo : TempRepository) (heap : Heap)

theorem TempRepository.Lock_blocks (h : repo.mu ≠ .free) : repo.Lock = .blocks := by
  cases hm : repo.mu <;> simp [TempRepository.Lock, RWMutex.Lock, Outcome.bind, hm] at h ⊢

theorem TempRepository.CreateFolder_blocks (folder : Addr) (now : Time) (h : repo.mu ≠ .free) :
    repo.CreateFolder heap folder now = .blocks := by
  simp [TempRepository.CreateFolder, TempRepository.Lock_blocks repo h, Outcome.bind]

theorem TempRepository.UpdateFolder_blocks (folder : Addr) (now : Time) (h : repo.mu ≠ .free) :
    repo.UpdateFolder heap folder now = .blocks := by
  simp [TempRepository.UpdateFolder, TempRepository.Lock_blocks repo h, Outcome.bind]

theorem TempRepository.DeleteFolder_blocks (id : ObjectID) (h : repo.mu ≠ .free) :
    repo.DeleteFolder id = .blocks := by
  simp [TempRepository.DeleteFolder, TempRepository.Lock_blocks repo h, Outcome.bind]

theorem TempRepository.CreateFile_blocks (file : Addr) (now : Time) (h : repo.mu ≠ .free) :
    repo.CreateFile heap file now = .blocks := by
  simp [TempRepository.CreateFile, TempRepository.Lock_blocks repo h, Outcome.bind]

theorem TempRepository.UpdateFile_blocks (file : Addr) (now : Time) (h : repo.mu ≠ .free) :
    repo.UpdateFile heap file now = .blocks := by
  simp [TempRepository.UpdateFile, TempRepository.Lock_blocks repo h, Outcome.bind]

theorem TempRepository.DeleteFile_blocks (id : ObjectID) (h : repo.mu ≠ .free) :
    repo.DeleteFile id = .blocks := by
  simp [TempRepository.DeleteFile, TempRepository.Lock_blocks repo h, Outcome.bind]

theorem TempRepository.CreateFolder_panics (folder : Addr) (now : Time)
    (hmu : repo.mu = .free) (hF : heap.folders[folder]? = none) :
    repo.CreateFolder heap folder now = .panics := by
  simp [TempRepository.CreateFolder, TempRepository.Lock, RWMutex.Lock, hmu, Outcome.bind, hF]

theorem TempRepository.UpdateFolder_panics (folder : Addr) (now : Time)
    (hmu : repo.mu = .free) (hF : heap.folders[folder]? = none) :
    repo.UpdateFolder heap folder now = .panics := by
  simp [TempRepository.UpdateFolder, TempRepository.Lock, RWMutex.Lock, hmu, Outcome.bind, hF]

theorem TempRepository.CreateFile_panics (file : Addr) (now : Time)
    (hmu : repo.mu = .free) (hF : heap.files[file]? = none) :
    repo.CreateFile heap file now = .panics := by
  simp [TempRepository.CreateFile, TempRepository.Lock, RWMutex.Lock, hmu, Outcome.bind, hF]

theorem TempRepository.UpdateFile_panics (file : Addr) (now : Time)
    (hmu : repo.mu = .free) (hF : heap.files[file]? = none) :
    repo.UpdateFile heap file now = .panics := by
  simp [TempRepository.UpdateFile, TempRepository.Lock, RWMutex.Lock, hmu, Outcome.bind, hF]

end TempRepositoryLocking

/-! ## Every record is stored under its own ID -/

theorem keyed_set {α : Type} (l : List α) (key : α → ObjectID) (i q : Nat) (a old : α)
    (k : ObjectID) (hold : l[i]? = some old) (ha : key a = key old)
    (h : ∃ G, l[q]? = some G ∧ key G = k) :
    ∃ G, (l.set i a)[q]? = some G ∧ key G = k := by
  obtain ⟨G, hG, hk⟩ := h
  by_cases hiq : i = q
  · subst hiq
    have hlt : i < l.length := (List.getElem?_eq_some.mp hG).1
    have hGold : G = old := Option.some.inj (hG.symm.trans hold)
    exact ⟨a, List.getElem?_set_self hlt, by rw [ha, ← hGold, hk]⟩
  · exact ⟨G, by rw [List.getElem?_set_ne hiq]; exact hG, hk⟩

theorem keyed_append {α : Type} (l : List α) (key : α → ObjectID) (q : Nat) (a : α)
    (k : ObjectID) (h : ∃ G, l[q]? = some G ∧ key G = k) :
    ∃ G, (l ++ [a])[q]? = some G ∧ key G = k := by
  obtain ⟨G, hG, hk⟩ := h
  have hlt : q < l.length := (List.getElem?_eq_some.mp hG).1
  exact ⟨G, by rw [List.getElem?_append_left hlt]; exact hG, hk⟩

theorem World.Keyed_init : World.init.Keyed :=
  ⟨fun k p h => by simp [World.init, NewTempRepository] at h,
    fun k p h => by simp [World.init, NewTempRepository] at h⟩

theorem World.Keyed_step {w w' : World} {c : Call} (hmu : w.repo.mu = .free) (hk : w.Keyed)
    (hc : c.handsOff w) (h : w.step c = .returns w') : w'.Keyed := by
  obtain ⟨hfo, hfi⟩ := hk
  cases c with
  | writeFolder p f =>
    simp only [World.step] at h
    cases hp : w.heap.folders[p]? with
    | none => simp [hp] at h
    | some old =>
      simp only [hp, Outcome.returns.injEq] at h
      subst h
      refine ⟨?_, hfi⟩
      intro k q hq
      have hne : p ≠ q := fun e => hc ⟨k, e ▸ hq⟩
      obtain ⟨G, hG, hm⟩ := hfo k q hq
      exact ⟨G, by simp only [List.getElem?_set_ne hne]; exact hG, hm⟩
  | writeFile p f =>
    simp only [World.step] at h
    cases hp : w.heap.files[p]? with
    | none => simp [hp] at h
    | some old =>
      simp only [hp, Outcome.returns.injEq] at h
      subst h
      refine ⟨hfo, ?_⟩
      intro k q hq
      have hne : p ≠ q := fun e => hc ⟨k, e ▸ hq⟩
      obtain ⟨G, hG, hm⟩ := hfi k q hq
      exact ⟨G, by simp only [List.getElem?_set_ne hne]; exact hG, hm⟩
  | newFolder f =>
    simp only [World.step, Heap.newFolder, Outcome.returns.injEq] at h
    subst h
    exact ⟨fun k p hp => keyed_append _ _ _ _ _ (hfo k p hp), hfi⟩
  | newFile f =>
    simp only [World.step, Heap.newFile, Outcome.returns.injEq] at h
    subst h
    exact ⟨hfo, fun k p hp => keyed_append _ _ _ _ _ (hfi k p hp)⟩
  | CreateFolder folder now =>
    simp only [World.step] at h
    cases hF : w.heap.folders[folder]? with
    | none =>
      rw [TempRepository.CreateFolder_panics w.repo w.heap folder now hmu hF] at h
      simp [Outcome.bind] at h
    | some F =>
      rw [TempRepository.CreateFolder_eq w.repo w.heap now hmu hF] at h
      split at h
      · simp only [Outcome.bind, Outcome.returns.injEq] at h
        subst h
        exact ⟨hfo, hfi⟩
      · simp only [Outcome.bind, Outcome.returns.injEq] at h
        subst h
        refine ⟨?_, hfi⟩
        intro k p hp
        by_cases hkF : k = F.ID
        · subst hkF
          simp only [Function.update_same, Option.some.injEq] at hp
          subst hp
          have hlt : folder < w.heap.folders.length := (List.getElem?_eq_some.mp hF).1
          exact ⟨_, List.getElem?_set_self hlt, rfl⟩
        · simp only [Function.update_noteq hkF] at hp
          exact keyed_set _ (fun G : Folder => G.ID) _ _ _ F _ hF rfl (hfo k p hp)
  | GetFolder id =>
    simp only [World.step] at h
    rw [TempRepository.GetFolder_eq w.repo id (by simp [hmu])] at h
    split at h <;>
    · simp only [Outcome.bind, Outcome.returns.injEq] at h
      subst h
      exact ⟨hfo, hfi⟩
  | UpdateFolder folder now =>
    simp only [World.step] at h
    cases hF : w.heap.folders[folder]? with
    | none =>
      rw [TempRepository.UpdateFolder_panics w.repo w.heap folder now hmu hF] at h
      simp [Outcome.bind] at h
    | some F =>
      rw [TempRepository.UpdateFolder_eq w.repo w.heap now hmu hF] at h
      split at h
      · simp only [Outcome.bind, Outcome.returns.injEq] at h
        subst h
        refine ⟨?_, hfi⟩
        intro k p hp
        by_cases hkF : k = F.ID
        · subst hkF
          simp only [Function.update_same, Option.some.injEq] at hp
          subst hp
          have hlt : folder < w.heap.folders.length := (List.getElem?_eq_some.mp hF).1
          exact ⟨_, List.getElem?_set_self hlt, rfl⟩
        · simp only [Function.update_noteq hkF] at hp
          exact keyed_set _ (fun G : Folder => G.ID) _ _ _ F _ hF rfl (hfo k p hp)
      · simp only [Outcome.bind, Outcome.returns.injEq] at h
        subst h
        exact ⟨hfo, hfi⟩
  | DeleteFolder id =>
    simp only [World.step] at h
    rw [TempRepository.DeleteFolder_eq w.repo id hmu] at h
    split at h
    · simp only [Outcome.bind, Outcome.returns.injEq] at h
      subst h
      refine ⟨?_, hfi⟩
      intro k p hp
      by_cases hkF : k = id
      · subst hkF
        simp at hp
      · simp only [Function.update_noteq hkF] at hp
        exact hfo k p hp
    · simp only [Outcome.bind, Outcome.returns.injEq] at h
      subst h
      exact ⟨hfo, hfi⟩
  | CreateFile file now =>
    simp only [World.step] at h
    cases hF : w.heap.files[file]? with
    | none =>
      rw [TempRepository.CreateFile_panics w.repo w.heap file now hmu hF] at h
      simp [Outcome.bind] at h
    | some F =>
      rw [TempRepository.CreateFile_eq w.repo w.heap now hmu hF] at h
      split at h
      · simp only [Outcome.bind, Outcome.returns.injEq] at h
        subst h
        exact ⟨hfo, hfi⟩
      · simp only [Outcome.bind, Outcome.returns.injEq] at h
        subst h
        refine ⟨hfo, ?_⟩
        intro k p hp
        by_cases hkF : k = F.ID
        · subst hkF
          simp only [Function.update_same, Option.some.injEq] at hp
          subst hp
          have hlt : file < w.heap.files.length := (List.getElem?_eq_some.mp hF).1
          exact ⟨_, List.getElem?_set_self hlt, rfl⟩
        · simp only [Function.update_noteq hkF] at hp
          exact keyed_set _ (fun X : File => X.ID) _ _ _ F _ hF rfl (hfi k p hp)
  | GetFile id =>
    simp only [World.step] at h
    rw [TempRepository.GetFile_eq w.repo id (by simp [hmu])] at h
    split at h <;>
    · simp only [Outcome.bind, Outcome.returns.injEq] at h
      subst h
      exact ⟨hfo, hfi⟩
  | UpdateFile file now =>
    simp only [World.step] at h
    cases hF : w.heap.files[file]? with
    | none =>
      rw [TempRepository.UpdateFile_panics w.repo w.heap file now hmu hF] at h
      simp [Outcome.bind] at h
    | some F =>
      rw [TempRepository.UpdateFile_eq w.repo w.heap now hmu hF] at h
      split at h
      · simp only [Outcome.bind, Outcome.returns.injEq] at h
        subst h
        refine ⟨hfo, ?_⟩
        intro k p hp
        by_cases hkF : k = F.ID
        · subst hkF
          simp only [Function.update_same, Option.some.injEq] at hp
          subst hp
          have hlt : file < w.heap.files.length := (List.getElem?_eq_some.mp hF).1
          exact ⟨_, List.getElem?_set_self hlt, rfl⟩
        · simp only [Function.update_noteq hkF] at hp
          exact keyed_set _ (fun X : File => X.ID) _ _ _ F _ hF rfl (hfi k p hp)
      · simp only [Outcome.bind, Outcome.returns.injEq] at h
        subst h
        exact ⟨hfo, hfi⟩
  | DeleteFile id =>
    simp only [World.step] at h
    rw [TempRepository.DeleteFile_eq w.repo id hmu] at h
    split at h
    · simp only [Outcome.bind, Outcome.returns.injEq] at h
      subst h
      refine ⟨hfo, ?_⟩
      intro k p hp
      by_cases hkF : k = id
      · subst hkF
        simp at hp
      · simp only [Function.update_noteq hkF] at hp
        exact hfi k p hp
    · simp only [Outcome.bind, Outcome.returns.injEq] at h
      subst h
      exact ⟨hfo, hfi⟩
  | GetFolderHierarchy ctx folderID =>
    simp only [World.step, TempRepository.GetFolderHierarchy, Outcome.bind,
      Outcome.returns.injEq] at h
    subst h
    exact ⟨hfo, hfi⟩

theorem World.Keyed_run : ∀ (calls : List Call) (w w' : World), w.Inv → w.Keyed →
    w.runsHandsOff calls → w.run calls = .returns w' → w'.Keyed
  | [], w, w', _, hk, _, h => by
    simp only [World.run, Outcome.returns.injEq] at h
    subst h
    exact hk
  | c :: cs, w, w', hi, hk, ho, h => by
    simp only [World.run] at h
    cases hs : w.step c with
    | returns w1 =>
      rw [hs] at h
      exact World.Keyed_run cs w1 w' (World.Inv_step hi ho.1 hs)
        (World.Keyed_step hi.1 hk ho.1 hs) (ho.2 w1 hs) h
    | blocks => rw [hs] at h; simp [Outcome.bind] at h
    | panics => rw [hs] at h; simp [Outcome.bind] at h

theorem ReachableHandsOff.keyed {w : World} (h : ReachableHandsOff w) : w.Keyed := by
  obtain ⟨calls, ho, hc⟩ := h
  exact World.Keyed_run calls World.init w World.Inv_init World.Keyed_init ho hc

/-! ## Basic facts about the scan loop -/

theorem PGVolderRepository.scanAll_ok (rows : List FolderRow) (folders : Slice Folder) :
    PGVolderRepository.scanAll (rows.map .ok) none folders =
      (if rows = [] then folders
       else some (folders.elems ++ rows.map fun r => r.scanInto Folder.zero), none) := by
  induction rows generalizing folders with
  | nil => simp [PGVolderRepository.scanAll]
  | cons r rest ih =>
    simp only [List.map_cons, PGVolderRepository.scanAll, ih]
    cases folders <;> cases rest <;> simp [Slice.append, Slice.elems]

theorem PGVolderRepository.scanAll_scan_error (oks : List FolderRow) (e : String)
    (rest : List (Except String FolderRow)) (final : error) (folders : Slice Folder) :
    PGVolderRepository.scanAll (oks.map .ok ++ .error e :: rest) final folders =
      (none, some e) := by
  induction oks generalizing folders with
  | nil => simp [PGVolderRepository.scanAll]
  | cons r more ih => simpa [PGVolderRepository.scanAll] using ih _

theorem PGVolderRepository.scanAll_final_error (oks : List FolderRow) (e : String)
    (folders : Slice Folder) :
    PGVolderRepository.scanAll (oks.map .ok) (some e) folders = (none, some e) := by
  induction oks generalizing folders with
  | nil => simp [PGVolderRepository.scanAll]
  | cons r more ih => simp only [List.map_cons, PGVolderRepository.scanAll, ih]

/-! ## The PostgreSQL backend -/

/-- C10, where the code departs from it: the statement `GetFolderHierarchy` sends
selects the column `modified_classifieded_date` from `folder_hierarchy`, whose
columns are id, parent_id, name, creation_date and modified_date. A server
that holds `table` as its `folders` rejects the statement, so for every table,
every context and every folderID the call returns the nil sequence and an
error; on the tree root→{A, B}, A→{C} with an uncancelled context the error
is the undefined column. With the last column spelled `modified_date`, the same
server and the same scan loop return root, A, B, C. -/
theorem C10_hierarchy_query_undefined_column (table : List FolderRow) (ctx : Context)
    (folderID : ObjectID) :
    "modified_classifieded_date" ∈ PGVolderRepository.hierarchyQuery.finalSelect ∧
    "modified_classifieded_date" ∉ PGVolderRepository.hierarchyQuery.anchorSelect ∧
    ((PGVolderRepository.GetFolderHierarchy { DB := Postgres.db table } ctx folderID).1 = none ∧
     (PGVolderRepository.GetFolderHierarchy { DB := Postgres.db table } ctx folderID).2
        ≠ none) ∧
    PGVolderRepository.GetFolderHierarchy { DB := Postgres.db Sample.tree }
        { cancelled := false } "root" =
      (none, some "column \"modified_classifieded_date\" does not exist") ∧
    (match Postgres.QueryContext Sample.tree { cancelled := false }
        { PGVolderRepository.hierarchyQuery with
          finalSelect := ["id", "parent_id", "name", "creation_date", "modified_date"] }
        "root" with
      | .error err => (none, some err)
      | .ok rows => PGVolderRepository.scanAll rows.items rows.err none) =
      (some [Sample.scanned "root" none "r" 1 1, Sample.scanned "A" (some "root") "a" 2 2,
             Sample.scanned "B" (some "root") "b" 3 3, Sample.scanned "C" (some "A") "c" 4 5],
       none) := by
  have ha : Postgres.analyse PGVolderRepository.hierarchyQuery =
      some "column \"modified_classifieded_date\" does not exist" := by decide
  refine ⟨by decide, by decide, ?_, ?_, by decide⟩
  · cases hc : ctx.cancelled <;>
      simp [PGVolderRepository.GetFolderHierarchy, Postgres.db, Postgres.QueryContext, hc, ha]
  · simp [PGVolderRepository.GetFolderHierarchy, Postgres.db, Postgres.QueryContext, ha]

/-- C11, where the code differs: on a store whose hierarchy statement runs
without error and yields no rows, with a clean end of iteration,
`GetFolderHierarchy` returns the nil sequence together with the nil error. -/
theorem C11_no_rows_counterexample :
    (Sample.cursor (.ok { items := [], err := none })).QueryContext { cancelled := false }
        PGVolderRepository.hierarchyQuery "nope" = .ok { items := [], err := none } ∧
    PGVolderRepository.GetFolderHierarchy
        { DB := Sample.cursor (.ok { items := [], err := none }) }
        { cancelled := false } "nope" = (none, none) ∧
    ¬ (PGVolderRepository.GetFolderHierarchy
        { DB := Sample.cursor (.ok { items := [], err := none }) }
        { cancelled := false } "nope").2 ≠ none :=
  ⟨rfl, rfl, fun h => h rfl⟩

/-- C11 as amended: when the hierarchy query executes without error, yields no
rows and the iteration ends without error, `GetFolderHierarchy` returns the nil
sequence, which has no elements, together with the nil error. -/
theorem C11_no_rows_returns_nil_nil (repo : PGVolderRepository) (ctx : Context)
    (folderID : ObjectID) (rows : Rows)
    (hq : repo.DB.QueryContext ctx PGVolderRepository.hierarchyQuery folderID = .ok rows)
    (hrows : rows.items = []) (herr : rows.err = none) :
    repo.GetFolderHierarchy ctx folderID = (none, none) ∧
    (repo.GetFolderHierarchy ctx folderID).1.elems = [] := by
  simp [PGVolderRepository.GetFolderHierarchy, hq, hrows, herr, PGVolderRepository.scanAll,
    Slice.elems]

/-- C11 as amended, on the store of the counterexample. -/
theorem C11_no_rows_returns_nil_nil_witness :
    PGVolderRepository.GetFolderHierarchy
        { DB := Sample.cursor (.ok { items := [], err := none }) }
        { cancelled := false } "nope" = (none, none) ∧
    (PGVolderRepository.GetFolderHierarchy
        { DB := Sample.cursor (.ok { items := [], err := none }) }
        { cancelled := false } "nope").1.elems = [] :=
  C11_no_rows_returns_nil_nil { DB := Sample.cursor (.ok { items := [], err := none }) }
    { cancelled := false } "nope" { items := [], err := none } rfl rfl rfl

/-- C12: with the query result as a cursor that yields a finite sequence of
rows, each scanning to a folder or to an error, followed by a final iteration
status, `GetFolderHierarchy` returns the nil sequence and the error whenever the
query itself fails, some row scan fails (the first such error is returned), or
all rows scan and the final status is an error, a cancelled context included;
the folders scanned so far are not returned. -/
theorem C12_errors_discard_partial_results (repo : PGVolderRepository) (ctx : Context)
    (folderID : ObjectID) :
    (∀ e, repo.DB.QueryContext ctx PGVolderRepository.hierarchyQuery folderID = .error e →
      repo.GetFolderHierarchy ctx folderID = (none, some e)) ∧
    (∀ (rows : Rows) (scanned : List FolderRow) (e : String)
        (rest : List (Except String FolderRow)),
      repo.DB.QueryContext ctx PGVolderRepository.hierarchyQuery folderID = .ok rows →
      rows.items = scanned.map .ok ++ .error e :: rest →
      repo.GetFolderHierarchy ctx folderID = (none, some e)) ∧
    (∀ (rows : Rows) (scanned : List FolderRow) (e : String),
      repo.DB.QueryContext ctx PGVolderRepository.hierarchyQuery folderID = .ok rows →
      rows.items = scanned.map .ok → rows.err = some e →
      repo.GetFolderHierarchy ctx folderID = (none, some e)) := by
  refine ⟨?_, ?_, ?_⟩
  · intro e hq
    simp [PGVolderRepository.GetFolderHierarchy, hq]
  · intro rows scanned e rest hq hitems
    simp only [PGVolderRepository.GetFolderHierarchy, hq, hitems,
      PGVolderRepository.scanAll_scan_error]
  · intro rows scanned e hq hitems herr
    simp only [PGVolderRepository.GetFolderHierarchy, hq, hitems, herr,
      PGVolderRepository.scanAll_final_error]

/-- C12 on three stores: the query fails; the second row fails to scan after the
root row scanned; both rows scan and the iteration ends with a cancelled
context. -/
theorem C12_errors_discard_partial_results_witness :
    PGVolderRepository.GetFolderHierarchy { DB := Sample.cursor (.error "connection refused") }
        { cancelled := false } "root" = (none, some "connection refused") ∧
    PGVolderRepository.GetFolderHierarchy
        { DB := Sample.cursor (.ok
            { items := [.ok Sample.rowRoot, .error "sql: Scan error", .ok Sample.rowA],
              err := none }) }
        { cancelled := false } "root" = (none, some "sql: Scan error") ∧
    PGVolderRepository.GetFolderHierarchy
        { DB := Sample.cursor (.ok
            { items := [.ok Sample.rowRoot, .ok Sample.rowA], err := some "context canceled" }) }
        { cancelled := false } "root" = (none, some "context canceled") :=
  ⟨(C12_errors_discard_partial_results
      { DB := Sample.cursor (.error "connection refused") } { cancelled := false } "root").1
      "connection refused" rfl,
   (C12_errors_discard_partial_results
      { DB := Sample.cursor (.ok
          { items := [.ok Sample.rowRoot, .error "sql: Scan error", .ok Sample.rowA],
            err := none }) } { cancelled := false } "root").2.1
      _ [Sample.rowRoot] "sql: Scan error" [.ok Sample.rowA] rfl rfl,
   (C12_errors_discard_partial_results
      { DB := Sample.cursor (.ok
          { items := [.ok Sample.rowRoot, .ok Sample.rowA], err := some "context canceled" }) }
      { cancelled := false } "root").2.2
      _ [Sample.rowRoot, Sample.rowA] "context canceled" rfl rfl rfl⟩

/-- C13, where the code differs: on the server holding the sample tree, whose
`files` is empty, `GetFolder` and `GetFile` of an ID that matches no row return
no entity and `sql.ErrNoRows` itself, the store's no-rows error, which is not the
error the in-memory backend returns for an absent ID. -/
theorem C13_no_rows_counterexample :
    (Sample.pg.GetFolder "nope" = (none, some sql.ErrNoRows) ∧
     NewTempRepository.GetFolder "nope" =
       .returns (NewTempRepository, none, some "folder not found") ∧
     (Sample.pg.GetFolder "nope").2 ≠ some "folder not found") ∧
    (Sample.pg.GetFile "nope" = (none, some sql.ErrNoRows) ∧
     NewTempRepository.GetFile "nope" =
       .returns (NewTempRepository, none, some "file not found") ∧
     (Sample.pg.GetFile "nope").2 ≠ some "file not found") :=
  ⟨⟨by decide, rfl, by decide⟩, ⟨by decide, rfl, by decide⟩⟩

/-- C13 as amended: when the single-row select of `GetFolder` (of `GetFile`)
matches no row, so that scanning the row reports `sql.ErrNoRows`, the operation
returns no entity and that same error, unchanged. -/
theorem C13_no_rows_passed_through (repo : PGVolderRepository) (id : ObjectID) :
    (repo.DB.QueryRow PGVolderRepository.getFolderQuery [.text id] = .err sql.ErrNoRows →
      repo.GetFolder id = (none, some sql.ErrNoRows)) ∧
    (repo.DB.QueryRow PGVolderRepository.getFileQuery [.text id] = .err sql.ErrNoRows →
      repo.GetFile id = (none, some sql.ErrNoRows)) := by
  constructor
  · intro h
    simp [PGVolderRepository.GetFolder, h, Row.scanFolder]
  · intro h
    simp [PGVolderRepository.GetFile, h, Row.scanFile]

/-- C13 as amended, on the server holding the sample tree. -/
theorem C13_no_rows_passed_through_witness :
    Sample.pg.GetFolder "nope" = (none, some sql.ErrNoRows) ∧
    Sample.pg.GetFile "nope" = (none, some sql.ErrNoRows) :=
  ⟨(C13_no_rows_passed_through Sample.pg "nope").1 (by decide),
   (C13_no_rows_passed_through Sample.pg "nope").2 (by decide)⟩

/-- C14, where the code departs from it: on the server holding the sample tree,
`CreateFolder` and `CreateFile` of a struct whose CreationDate is 1 and
ModifiedDate 2 succeed and write the generated ID into the struct, but leave the
two dates as the caller supplied them, different from each other, and the
insert is sent the dates 1 and 2; the in-memory `CreateFolder`/`CreateFile` of
the same structs, at time 7, set both dates to 7. -/
theorem C14_create_keeps_caller_dates :
    (Sample.pg.CreateFolder Sample.folderDated = ({ Sample.folderDated with ID := "6" }, none) ∧
     (Sample.pg.CreateFolder Sample.folderDated).1.CreationDate = 1 ∧
     (Sample.pg.CreateFolder Sample.folderDated).1.ModifiedDate = 2 ∧
     (Sample.pg.CreateFolder Sample.folderDated).1.CreationDate ≠
       (Sample.pg.CreateFolder Sample.folderDated).1.ModifiedDate ∧
     PGVolderRepository.createFolderArgs Sample.folderDated =
       [.null, .text "docs", .time 1, .time 2] ∧
     ∃ repo' heap' G,
       NewTempRepository.CreateFolder { folders := [Sample.folderDated], files := [] } 0 7 =
         .returns (repo', heap', none) ∧
       heap'.folders[0]? = some G ∧ G.CreationDate = 7 ∧ G.ModifiedDate = 7) ∧
    (Sample.pg.CreateFile Sample.fileDated = ({ Sample.fileDated with ID := "1" }, none) ∧
     (Sample.pg.CreateFile Sample.fileDated).1.CreationDate = 1 ∧
     (Sample.pg.CreateFile Sample.fileDated).1.ModifiedDate = 2 ∧
     (Sample.pg.CreateFile Sample.fileDated).1.CreationDate ≠
       (Sample.pg.CreateFile Sample.fileDated).1.ModifiedDate ∧
     PGVolderRepository.createFileArgs Sample.fileDated =
       [.text "a", .text "notes.txt", .text "text/plain", .int 2, .time 1, .time 2,
        .bytes [104, 105]] ∧
     ∃ repo' heap' X,
       NewTempRepository.CreateFile { folders := [], files := [Sample.fileDated] } 0 7 =
         .returns (repo', heap', none) ∧
       heap'.files[0]? = some X ∧ X.CreationDate = 7 ∧ X.ModifiedDate = 7) :=
  ⟨⟨by decide, by decide, by decide, by decide, by decide, _, _, _, rfl, rfl, rfl, rfl⟩,
   ⟨by decide, by decide, by decide, by decide, by decide, _, _, _, rfl, rfl, rfl, rfl⟩⟩

/-- C16: with the store's statement execution returning an affected-row count
and an optional error, `UpdateFolder`, `UpdateFile`, `DeleteFolder` and
`DeleteFile` return exactly the execution's error, whatever the count; so for
an ID that matches no row (count 0, no error) each of them returns nil. -/
theorem C16_exec_count_ignored (repo : PGVolderRepository) (folder : Folder) (file : File)
    (id : ObjectID) :
    (repo.UpdateFolder folder =
        (repo.DB.Exec PGVolderRepository.updateFolderQuery
          [Value.ofPtr folder.ParentID, .text folder.Name, .time folder.ModifiedDate,
           .text folder.ID]).2 ∧
     repo.UpdateFile file =
        (repo.DB.Exec PGVolderRepository.updateFileQuery
          [.text file.FolderID, .text file.Name, .text file.ContentType, .int file.Size,
           .time file.ModifiedDate, .bytes file.Data, .text file.ID]).2 ∧
     repo.DeleteFolder id = (repo.DB.Exec PGVolderRepository.deleteFolderQuery [.text id]).2 ∧
     repo.DeleteFile id = (repo.DB.Exec PGVolderRepository.deleteFileQuery [.text id]).2) ∧
    ((repo.DB.Exec PGVolderRepository.updateFolderQuery
          (PGVolderRepository.updateFolderArgs folder) = (0, none) →
        repo.UpdateFolder folder = none) ∧
     (repo.DB.Exec PGVolderRepository.updateFileQuery
          (PGVolderRepository.updateFileArgs file) = (0, none) →
        repo.UpdateFile file = none) ∧
     (repo.DB.Exec PGVolderRepository.deleteFolderQuery [.text id] = (0, none) →
        repo.DeleteFolder id = none) ∧
     (repo.DB.Exec PGVolderRepository.deleteFileQuery [.text id] = (0, none) →
        repo.DeleteFile id = none)) := by
  refine ⟨⟨?_, ?_, ?_, ?_⟩, ⟨?_, ?_, ?_, ?_⟩⟩
  · simp only [PGVolderRepository.UpdateFolder, PGVolderRepository.updateFolderArgs]
    rcases repo.DB.Exec PGVolderRepository.updateFolderQuery _ with ⟨n, _ | e⟩ <;> rfl
  · simp only [PGVolderRepository.UpdateFile, PGVolderRepository.updateFileArgs]
    rcases repo.DB.Exec PGVolderRepository.updateFileQuery _ with ⟨n, _ | e⟩ <;> rfl
  · simp only [PGVolderRepository.DeleteFolder]
    rcases repo.DB.Exec PGVolderRepository.deleteFolderQuery _ with ⟨n, _ | e⟩ <;> rfl
  · simp only [PGVolderRepository.DeleteFile]
    rcases repo.DB.Exec PGVolderRepository.deleteFileQuery _ with ⟨n, _ | e⟩ <;> rfl
  · intro h
    simp [PGVolderRepository.UpdateFolder, h]
  · intro h
    simp [PGVolderRepository.UpdateFile, h]
  · intro h
    simp [PGVolderRepository.DeleteFolder, h]
  · intro h
    simp [PGVolderRepository.DeleteFile, h]

/-- C16 on the server holding the sample tree: updates and deletes of the IDs
"a" and "x", which match no row there, report success. -/
theorem C16_exec_count_ignored_witness :
    Sample.pg.UpdateFolder Sample.folderA = none ∧
    Sample.pg.UpdateFile Sample.fileX = none ∧
    Sample.pg.DeleteFolder "x" = none ∧
    Sample.pg.DeleteFile "x" = none :=
  ⟨(C16_exec_count_ignored Sample.pg Sample.folderA Sample.fileX "x").2.1 (by decide),
   (C16_exec_count_ignored Sample.pg Sample.folderA Sample.fileX "x").2.2.1 (by decide),
   (C16_exec_count_ignored Sample.pg Sample.folderA Sample.fileX "x").2.2.2.1 (by decide),
   (C16_exec_count_ignored Sample.pg Sample.folderA Sample.fileX "x").2.2.2.2 (by decide)⟩

/-- C17: with the query result as a cursor yielding rows `r1..rn` that all scan,
followed by a clean final iteration status, `GetFolderHierarchy` returns no
error and the sequence `[scan r1, ..., scan rn]`: as many folders as rows, in the
cursor's order, none dropped, duplicated or reordered; each folder has the
row's id, name and dates, and a NULL `parent_id` is scanned as the nil ParentID.
The slice is nil when there is no row and non-nil otherwise. -/
theorem C17_rows_scanned_in_order (repo : PGVolderRepository) (ctx : Context)
    (folderID : ObjectID) (rows : Rows) (rs : List FolderRow)
    (hq : repo.DB.QueryContext ctx PGVolderRepository.hierarchyQuery folderID = .ok rows)
    (hitems : rows.items = rs.map .ok) (herr : rows.err = none) :
    (repo.GetFolderHierarchy ctx folderID).2 = none ∧
    (repo.GetFolderHierarchy ctx folderID).1.elems = rs.map (fun r => r.scanInto Folder.zero) ∧
    (repo.GetFolderHierarchy ctx folderID).1.elems.length = rs.length ∧
    (∀ (i : Nat) (r : FolderRow), rs[i]? = some r →
      ∃ f, (repo.GetFolderHierarchy ctx folderID).1.elems[i]? = some f ∧
        f.ID = r.id ∧ f.ParentID = r.parent_id ∧ f.Name = r.name ∧
        f.CreationDate = r.creation_date ∧ f.ModifiedDate = r.modified_date ∧
        (r.parent_id = none → f.ParentID = none)) ∧
    ((repo.GetFolderHierarchy ctx folderID).1 = none ↔ rs = []) := by
  have hres : repo.GetFolderHierarchy ctx folderID =
      (if rs = [] then none else some (rs.map fun r => r.scanInto Folder.zero), none) := by
    simp only [PGVolderRepository.GetFolderHierarchy, hq, hitems, herr,
      PGVolderRepository.scanAll_ok, Slice.elems, List.nil_append]
  have helems : (repo.GetFolderHierarchy ctx folderID).1.elems =
      rs.map (fun r => r.scanInto Folder.zero) := by
    rw [hres]
    cases rs <;> simp [Slice.elems]
  refine ⟨by rw [hres], helems, by rw [helems, List.length_map], ?_, ?_⟩
  · intro i r hi
    refine ⟨r.scanInto Folder.zero, ?_, rfl, rfl, rfl, rfl, rfl, fun h => h⟩
    rw [helems, List.getElem?_map, hi]
    rfl
  · rw [hres]
    cases rs <;> simp

/-- C17 on a store whose cursor yields the root row, whose `parent_id` is NULL,
and then its child. -/
theorem C17_rows_scanned_in_order_witness :
    PGVolderRepository.GetFolderHierarchy
        { DB := Sample.cursor (.ok
            { items := [.ok Sample.rowRoot, .ok Sample.rowA], err := none }) }
        { cancelled := false } "root" =
      (some [Sample.scanned "root" none "r" 1 1, Sample.scanned "A" (some "root") "a" 2 2],
       none) :=
  have c := C17_rows_scanned_in_order
    { DB := Sample.cursor (.ok { items := [.ok Sample.rowRoot, .ok Sample.rowA], err := none }) }
    { cancelled := false } "root"
    { items := [.ok Sample.rowRoot, .ok Sample.rowA], err := none }
    [Sample.rowRoot, Sample.rowA] rfl rfl rfl
  Prod.ext (by
    have h1 := c.2.1
    have h2 := c.2.2.2.2
    cases hx : (PGVolderRepository.GetFolderHierarchy
        { DB := Sample.cursor (.ok
            { items := [.ok Sample.rowRoot, .ok Sample.rowA], err := none }) }
        { cancelled := false } "root").1 with
    | none => rw [hx] at h2; simp at h2
    | some xs => rw [hx] at h1; simpa [Slice.elems] using h1) c.1

/-! ## The in-memory backend: keys and the two maps -/

/-- C18, where the code differs: a caller creates "a" and "x" at time 5, sets the
ID of the same two structs to "b" and "y" through the pointers it kept, and
creates them again at time 6. All four creates succeed; afterwards the folder
stored under the key "a" has ID "b" and `GetFolder("a")` succeeds and returns it,
and the file stored under "x" has ID "y". -/
theorem C18_own_id_counterexample :
    Reachable Sample.renamed ∧
    (∃ G, Sample.renamed.folderAt "a" = some G ∧ G.ID = "b" ∧ G.ID ≠ "a" ∧
      Sample.renamed.repo.GetFolder "a" = .returns (Sample.renamed.repo, some 0, none) ∧
      Sample.renamed.heap.folders[0]? = some G) ∧
    (∃ X, Sample.renamed.fileAt "x" = some X ∧ X.ID = "y" ∧ X.ID ≠ "x" ∧
      Sample.renamed.repo.GetFile "x" = .returns (Sample.renamed.repo, some 0, none) ∧
      Sample.renamed.heap.files[0]? = some X) :=
  ⟨⟨_, Sample.run_renameCalls⟩,
   ⟨_, rfl, rfl, by decide, rfl, rfl⟩,
   ⟨_, rfl, rfl, by decide, rfl, rfl⟩⟩

/-- C18 as amended: in the in-memory backend, in every store state reached from
`NewTempRepository()` by a sequence of caller steps none of which writes to a
struct while the repository holds its pointer, every record is stored under its
own ID: for every key `k` of the folder map the folder stored under `k` has ID
`k`, likewise for the file map; so `GetFolder(id)` and `GetFile(id)`, when they
succeed, return a struct whose ID is `id`. -/
theorem C18_stored_under_own_id (w : World) (hr : ReachableHandsOff w) :
    (∀ k p, w.repo.folders k = some p → ∃ G, w.folderAt k = some G ∧ G.ID = k) ∧
    (∀ k p, w.repo.files k = some p → ∃ X, w.fileAt k = some X ∧ X.ID = k) ∧
    (∀ id repo' p, w.repo.GetFolder id = .returns (repo', some p, none) →
      ∃ G, w.heap.folders[p]? = some G ∧ G.ID = id) ∧
    (∀ id repo' p, w.repo.GetFile id = .returns (repo', some p, none) →
      ∃ X, w.heap.files[p]? = some X ∧ X.ID = id) := by
  obtain ⟨hfo, hfi⟩ := hr.keyed
  have hmu : w.repo.mu ≠ .writer := by simp [hr.inv.1]
  refine ⟨?_, ?_, ?_, ?_⟩
  · intro k p hp
    obtain ⟨G, hG, hk⟩ := hfo k p hp
    exact ⟨G, by simp [World.folderAt, hp, hG], hk⟩
  · intro k p hp
    obtain ⟨X, hX, hk⟩ := hfi k p hp
    exact ⟨X, by simp [World.fileAt, hp, hX], hk⟩
  · intro id repo' p h
    rw [TempRepository.GetFolder_eq w.repo id hmu] at h
    split at h
    · simp [errors.New] at h
    · rename_i q hq
      simp only [Outcome.returns.injEq, Prod.mk.injEq, Option.some.injEq, and_true] at h
      rw [← h.2]
      exact hfo id q hq
  · intro id repo' p h
    rw [TempRepository.GetFile_eq w.repo id hmu] at h
    split at h
    · simp [errors.New] at h
    · rename_i q hq
      simp only [Outcome.returns.injEq, Prod.mk.injEq, Option.some.injEq, and_true] at h
      rw [← h.2]
      exact hfi id q hq

/-- C18 as amended, in the state reached by creating the sample folder and file
with no write by the caller: what is stored under "a" has ID "a", what is stored
under "x" has ID "x". -/
theorem C18_stored_under_own_id_witness :
    (∃ G, Sample.stored.folderAt "a" = some G ∧ G.ID = "a") ∧
    (∃ X, Sample.stored.fileAt "x" = some X ∧ X.ID = "x") :=
  ⟨(C18_stored_under_own_id Sample.stored Sample.handsOff_stored).1 "a" 0 (by decide),
   (C18_stored_under_own_id Sample.stored Sample.handsOff_stored).2.1 "x" 0 (by decide)⟩

/-- C19: in the in-memory backend, folder IDs and file IDs are independent.
`CreateFolder`, `UpdateFolder` and `DeleteFolder` leave the file map as it is and
end the same way, with the same folder map, heap and error, whatever the file
map holds; `CreateFile`, `UpdateFile` and `DeleteFile` likewise with respect to
the folder map. So `CreateFile` of a struct whose ID is not a key of the file
map succeeds whatever the folder map holds, also when a folder is stored under
that ID and none under the struct's FolderID. -/
theorem C19_independent_namespaces (repo : TempRepository) (heap : Heap) (p : Addr)
    (now : Time) (id : ObjectID) (other : ObjectID → Option Addr) :
    (({ repo with files := other } : TempRepository).CreateFolder heap p now =
        (repo.CreateFolder heap p now).map
          (fun r => ({ r.1 with files := other }, r.2.1, r.2.2)) ∧
     ({ repo with files := other } : TempRepository).UpdateFolder heap p now =
        (repo.UpdateFolder heap p now).map
          (fun r => ({ r.1 with files := other }, r.2.1, r.2.2)) ∧
     ({ repo with files := other } : TempRepository).DeleteFolder id =
        (repo.DeleteFolder id).map (fun r => ({ r.1 with files := other }, r.2))) ∧
    ((∀ r, repo.CreateFolder heap p now = .returns r →
        r.1.files = repo.files ∧ r.2.1.files = heap.files) ∧
     (∀ r, repo.UpdateFolder heap p now = .returns r →
        r.1.files = repo.files ∧ r.2.1.files = heap.files) ∧
     (∀ r, repo.DeleteFolder id = .returns r → r.1.files = repo.files)) ∧
    (({ repo with folders := other } : TempRepository).CreateFile heap p now =
        (repo.CreateFile heap p now).map
          (fun r => ({ r.1 with folders := other }, r.2.1, r.2.2)) ∧
     ({ repo with folders := other } : TempRepository).UpdateFile heap p now =
        (repo.UpdateFile heap p now).map
          (fun r => ({ r.1 with folders := other }, r.2.1, r.2.2)) ∧
     ({ repo with folders := other } : TempRepository).DeleteFile id =
        (repo.DeleteFile id).map (fun r => ({ r.1 with folders := other }, r.2))) ∧
    ((∀ r, repo.CreateFile heap p now = .returns r →
        r.1.folders = repo.folders ∧ r.2.1.folders = heap.folders) ∧
     (∀ r, repo.UpdateFile heap p now = .returns r →
        r.1.folders = repo.folders ∧ r.2.1.folders = heap.folders) ∧
     (∀ r, repo.DeleteFile id = .returns r → r.1.folders = repo.folders)) ∧
    (∀ F : File, repo.mu = .free → heap.files[p]? = some F → repo.files F.ID = none →
      ∃ repo' heap', repo.CreateFile heap p now = .returns (repo', heap', none)) := by
  refine ⟨⟨?_, ?_, ?_⟩, ⟨?_, ?_, ?_⟩, ⟨?_, ?_, ?_⟩, ⟨?_, ?_, ?_⟩, ?_⟩
  · by_cases hmu : repo.mu = .free
    · cases hF : heap.folders[p]? with
      | none =>
        rw [TempRepository.CreateFolder_panics repo heap p now hmu hF,
          TempRepository.CreateFolder_panics _ heap p now (by simpa using hmu) hF]
        rfl
      | some F =>
        rw [TempRepository.CreateFolder_eq repo heap now hmu hF,
          TempRepository.CreateFolder_eq _ heap now (by simpa using hmu) hF]
        split <;> simp [Outcome.map]
    · rw [TempRepository.CreateFolder_blocks repo heap p now hmu,
        TempRepository.CreateFolder_blocks _ heap p now (by simpa using hmu)]
      rfl
  · by_cases hmu : repo.mu = .free
    · cases hF : heap.folders[p]? with
      | none =>
        rw [TempRepository.UpdateFolder_panics repo heap p now hmu hF,
          TempRepository.UpdateFolder_panics _ heap p now (by simpa using hmu) hF]
        rfl
      | some F =>
        rw [TempRepository.UpdateFolder_eq repo heap now hmu hF,
          TempRepository.UpdateFolder_eq _ heap now (by simpa using hmu) hF]
        split <;> simp [Outcome.map]
    · rw [TempRepository.UpdateFolder_blocks repo heap p now hmu,
        TempRepository.UpdateFolder_blocks _ heap p now (by simpa using hmu)]
      rfl
  · by_cases hmu : repo.mu = .free
    · rw [TempRepository.DeleteFolder_eq repo id hmu,
        TempRepository.DeleteFolder_eq _ id (by simpa using hmu)]
      split <;> simp [Outcome.map]
    · rw [TempRepository.DeleteFolder_blocks repo id hmu,
        TempRepository.DeleteFolder_blocks _ id (by simpa using hmu)]
      rfl
  · intro r h
    have hmu := TempRepository.Lock_bind_returns repo h
    cases hF : heap.folders[p]? with
    | none => rw [TempRepository.CreateFolder_panics repo heap p now hmu hF] at h; cases h
    | some F =>
      rw [TempRepository.CreateFolder_eq repo heap now hmu hF] at h
      split at h <;> cases h <;> exact ⟨rfl, rfl⟩
  · intro r h
    have hmu := TempRepository.Lock_bind_returns repo h
    cases hF : heap.folders[p]? with
    | none => rw [TempRepository.UpdateFolder_panics repo heap p now hmu hF] at h; cases h
    | some F =>
      rw [TempRepository.UpdateFolder_eq repo heap now hmu hF] at h
      split at h <;> cases h <;> exact ⟨rfl, rfl⟩
  · intro r h
    have hmu := TempRepository.Lock_bind_returns repo h
    rw [TempRepository.DeleteFolder_eq repo id hmu] at h
    split at h <;> cases h <;> rfl
  · by_cases hmu : repo.mu = .free
    · cases hF : heap.files[p]? with
      | none =>
        rw [TempRepository.CreateFile_panics repo heap p now hmu hF,
          TempRepository.CreateFile_panics _ heap p now (by simpa using hmu) hF]
        rfl
      | some F =>
        rw [TempRepository.CreateFile_eq repo heap now hmu hF,
          TempRepository.CreateFile_eq _ heap now (by simpa using hmu) hF]
        split <;> simp [Outcome.map]
    · rw [TempRepository.CreateFile_blocks repo heap p now hmu,
        TempRepository.CreateFile_blocks _ heap p now (by simpa using hmu)]
      rfl
  · by_cases hmu : repo.mu = .free
    · cases hF : heap.files[p]? with
      | none =>
        rw [TempRepository.UpdateFile_panics repo heap p now hmu hF,
          TempRepository.UpdateFile_panics _ heap p now (by simpa using hmu) hF]
        rfl
      | some F =>
        rw [TempRepository.UpdateFile_eq repo heap now hmu hF,
          TempRepository.UpdateFile_eq _ heap now (by simpa using hmu) hF]
        split <;> simp [Outcome.map]
    · rw [TempRepository.UpdateFile_blocks repo heap p now hmu,
        TempRepository.UpdateFile_blocks _ heap p now (by simpa using hmu)]
      rfl
  · by_cases hmu : repo.mu = .free
    · rw [TempRepository.DeleteFile_eq repo id hmu,
        TempRepository.DeleteFile_eq _ id (by simpa using hmu)]
      split <;> simp [Outcome.map]
    · rw [TempRepository.DeleteFile_blocks repo id hmu,
        TempRepository.DeleteFile_blocks _ id (by simpa using hmu)]
      rfl
  · intro r h
    have hmu := TempRepository.Lock_bind_returns repo h
    cases hF : heap.files[p]? with
    | none => rw [TempRepository.CreateFile_panics repo heap p now hmu hF] at h; cases h
    | some F =>
      rw [TempRepository.CreateFile_eq repo heap now hmu hF] at h
      split at h <;> cases h <;> exact ⟨rfl, rfl⟩
  · intro r h
    have hmu := TempRepository.Lock_bind_returns repo h
    cases hF : heap.files[p]? with
    | none => rw [TempRepository.UpdateFile_panics repo heap p now hmu hF] at h; cases h
    | some F =>
      rw [TempRepository.UpdateFile_eq repo heap now hmu hF] at h
      split at h <;> cases h <;> exact ⟨rfl, rfl⟩
  · intro r h
    have hmu := TempRepository.Lock_bind_returns repo h
    rw [TempRepository.DeleteFile_eq repo id hmu] at h
    split at h <;> cases h <;> rfl
  · intro F hmu hF hfresh
    rw [TempRepository.CreateFile_eq repo heap now hmu hF]
    simp [hfresh]

/-- C19 on a repository in which a folder is stored under "x" and none under
"a": `CreateFile` of the sample file, whose ID is "x" and whose FolderID is "a",
succeeds. -/
theorem C19_independent_namespaces_witness :
    Sample.folderNamedX.folders Sample.fileX.ID = some 0 ∧
    Sample.folderNamedX.folders Sample.fileX.FolderID = none ∧
    ∃ repo' heap',
      Sample.folderNamedX.CreateFile Sample.heap 0 9 = .returns (repo', heap', none) :=
  ⟨by decide, by decide,
   (C19_independent_namespaces Sample.folderNamedX Sample.heap 0 9 "x"
      (fun _ => none)).2.2.2.2 Sample.fileX rfl rfl rfl⟩

end Volders
